import Mathlib

/-!
Shallow embedding of the BookPack validation scripts
(`scripts/validate-bookpack.py` and `scripts/build_catalog.py`).

JSON documents are modelled by the inductive type `Json` (numbers as `Int`);
a package directory is a `Package`: an association list from relative path to
file content, where content is either parsed JSON or an undecodable file
carrying the text of its decode error.  Python operations that can raise
(`in` on non-iterables, `.get` on non-dicts, `len` of non-sized values,
`os.path.join` with a non-string, `", ".join` of non-strings, dict membership
of an unhashable value) are modelled in the `Except PyErr` monad, so an
uncaught Python exception corresponds to an `Except.error` result.

The validator's `error`/`warn` methods append to two shared lists; a warning
is additionally appended to the error list at the moment it is raised when
strict mode is on.  Since messages never depend on the current lists, the run
is modelled as a stream of `Finding`s (in emission order); `mkResult` applies
exactly the per-emission rule: errors are the `err` findings plus, under
strict mode, the `wrn` findings, in stream order, which reproduces the
mutable-append semantics of the source.
-/

/-- A JSON value as produced by Python's `json.load` (numbers as `Int`). -/
inductive Json where
  | null
  | bool (b : Bool)
  | num (n : Int)
  | str (s : String)
  | arr (elems : List Json)
  | obj (fields : List (String × Json))

mutual

/-- Decidable equality on `Json` (nested inductive, so written by hand). -/
def Json.decEq : (a b : Json) → Decidable (a = b)
  | .null, .null => isTrue rfl
  | .bool a, .bool b =>
    match decEq a b with
    | isTrue h => isTrue (by rw [h])
    | isFalse h => isFalse fun hh => h (by injection hh)
  | .num a, .num b =>
    match decEq a b with
    | isTrue h => isTrue (by rw [h])
    | isFalse h => isFalse fun hh => h (by injection hh)
  | .str a, .str b =>
    match decEq a b with
    | isTrue h => isTrue (by rw [h])
    | isFalse h => isFalse fun hh => h (by injection hh)
  | .arr xs, .arr ys =>
    match decEqJsonList xs ys with
    | isTrue h => isTrue (by rw [h])
    | isFalse h => isFalse fun hh => h (by injection hh)
  | .obj fs, .obj gs =>
    match decEqJsonFields fs gs with
    | isTrue h => isTrue (by rw [h])
    | isFalse h => isFalse fun hh => h (by injection hh)
  | .null, .bool _ | .null, .num _ | .null, .str _ | .null, .arr _ | .null, .obj _
  | .bool _, .null | .bool _, .num _ | .bool _, .str _ | .bool _, .arr _ | .bool _, .obj _
  | .num _, .null | .num _, .bool _ | .num _, .str _ | .num _, .arr _ | .num _, .obj _
  | .str _, .null | .str _, .bool _ | .str _, .num _ | .str _, .arr _ | .str _, .obj _
  | .arr _, .null | .arr _, .bool _ | .arr _, .num _ | .arr _, .str _ | .arr _, .obj _
  | .obj _, .null | .obj _, .bool _ | .obj _, .num _ | .obj _, .str _ | .obj _, .arr _ =>
    isFalse fun hh => by injection hh

/-- Decidable equality on lists of `Json`. -/
def decEqJsonList : (xs ys : List Json) → Decidable (xs = ys)
  | [], [] => isTrue rfl
  | [], _ :: _ => isFalse fun hh => by injection hh
  | _ :: _, [] => isFalse fun hh => by injection hh
  | x :: xs, y :: ys =>
    match Json.decEq x y with
    | isFalse h => isFalse fun hh => h (by injection hh)
    | isTrue h1 =>
      match decEqJsonList xs ys with
      | isTrue h2 => isTrue (by rw [h1, h2])
      | isFalse h => isFalse fun hh => h (by injection hh)

/-- Decidable equality on JSON object field lists. -/
def decEqJsonFields : (fs gs : List (String × Json)) → Decidable (fs = gs)
  | [], [] => isTrue rfl
  | [], _ :: _ => isFalse fun hh => by injection hh
  | _ :: _, [] => isFalse fun hh => by injection hh
  | (k, v) :: fs, (l, w) :: gs =>
    match decEq k l with
    | isFalse h => isFalse fun hh => h (by cases hh; rfl)
    | isTrue hk =>
      match Json.decEq v w with
      | isFalse h => isFalse fun hh => h (by cases hh; rfl)
      | isTrue hv =>
        match decEqJsonFields fs gs with
        | isTrue h2 => isTrue (by rw [hk, hv, h2])
        | isFalse h => isFalse fun hh => h (by injection hh)

end

instance : DecidableEq Json := Json.decEq

/-- Content of a file on disk: parsed JSON, or an undecodable file together
with the text of the `json.JSONDecodeError` / `UnicodeDecodeError`. -/
inductive FileData where
  | json (val : Json)
  | invalid (errText : String)
deriving DecidableEq

/-- A BookPack directory, as consumed by `BookPackValidator`: the absolute
path (`book_dir`), whether the directory exists, and its files keyed by
path relative to the package root. -/
structure Package where
  bookDir : String
  dirExists : Bool
  files : List (String × FileData)
deriving DecidableEq

/-- One transcript emission of the validator: `self.error(msg)` or
`self.warn(msg)`. -/
inductive Finding where
  | err (msg : String)
  | wrn (msg : String)
deriving DecidableEq

/-- The message carried by a finding. -/
def Finding.msgOf : Finding → String
  | .err m => m
  | .wrn m => m

/-- Uncaught Python exceptions (and `sys.exit` for the catalog builder). -/
inductive PyErr where
  | typeError
  | attributeError
  | keyError
  | indexError
  | decodeError
  | systemExit
deriving DecidableEq

/-- Result of a `validate` run: the returned boolean and the two accumulated
lists `self.errors` and `self.warnings`. -/
structure VResult where
  passed : Bool
  errors : List String
  warnings : List String
deriving DecidableEq

/-- First-match association-list lookup (Python dict lookup for objects
parsed from JSON, and file lookup inside a `Package`). -/
def lookupKey {α : Type} : List (String × α) → String → Option α
  | [], _ => none
  | (k, v) :: rest, key => if k = key then some v else lookupKey rest key

/-- Python truthiness of a JSON value. -/
def pyTruthy : Json → Bool
  | .null => false
  | .bool b => b
  | .num n => n != 0
  | .str s => s != ""
  | .arr xs => !xs.isEmpty
  | .obj fs => !fs.isEmpty

/-- Is the value a JSON object (`isinstance(x, dict)`)? -/
def Json.isObj : Json → Bool
  | .obj _ => true
  | _ => false

/-- `as` is a prefix of `bs` (boolean, on character lists). -/
def leadsWith : List Char → List Char → Bool
  | [], _ => true
  | _ :: _, [] => false
  | a :: as, b :: bs => a = b && leadsWith as bs

/-- Substring test on character lists. -/
def hasSubAux (pat : List Char) : List Char → Bool
  | [] => leadsWith pat []
  | c :: rest => leadsWith pat (c :: rest) || hasSubAux pat rest

/-- Python's `pat in s` for strings (substring test). -/
def containsSub (pat s : String) : Bool := hasSubAux pat.data s.data

/-- Python's `key in x` (`__contains__`): key membership for dicts, element
membership for lists, substring test for strings; `TypeError` otherwise. -/
def pyContains (key : String) : Json → Except PyErr Bool
  | .obj fs => .ok (lookupKey fs key).isSome
  | .arr xs => .ok (xs.contains (.str key))
  | .str s => .ok (containsSub key s)
  | _ => .error .typeError

/-- Python's `x.get(key, dflt)`: only dicts have `.get`
(`AttributeError` otherwise). -/
def pyGet (j : Json) (key : String) (dflt : Json) : Except PyErr Json :=
  match j with
  | .obj fs => .ok ((lookupKey fs key).getD dflt)
  | _ => .error .attributeError

/-- Python's `x[key]` with a string key. -/
def pySubscr (j : Json) (key : String) : Except PyErr Json :=
  match j with
  | .obj fs =>
    match lookupKey fs key with
    | some v => .ok v
    | none => .error .keyError
  | _ => .error .typeError

/-- Python's `len(x)`. -/
def pyLen : Json → Except PyErr Nat
  | .str s => .ok s.length
  | .arr xs => .ok xs.length
  | .obj fs => .ok fs.length
  | _ => .error .typeError

/-- Python's `for x in j`: lists yield elements, strings yield one-character
strings, dicts yield their keys; `TypeError` otherwise. -/
def pyIterate : Json → Except PyErr (List Json)
  | .arr xs => .ok xs
  | .str s => .ok (s.data.map fun c => .str (String.mk [c]))
  | .obj fs => .ok (fs.map fun kv => .str kv.1)
  | _ => .error .typeError

/-- Python's `j in chars` for a dict `chars` with string keys: unhashable
values raise `TypeError`; any hashable non-string never equals a string
key. -/
def pyDictMember (j : Json) (fs : List (String × Json)) : Except PyErr Bool :=
  match j with
  | .arr _ => .error .typeError
  | .obj _ => .error .typeError
  | .str s => .ok (lookupKey fs s).isSome
  | _ => .ok false

/-- Python `==` as used on JSON values compared against an int or a string:
`bool` and `int` compare numerically, otherwise structural equality. -/
def Json.pyNumVal : Json → Option Int
  | .bool b => some (if b then 1 else 0)
  | .num n => some n
  | _ => none

/-- Python equality for the comparisons in the scripts (declared count vs
actual count, `schemaVersion` vs `"1.0"`). -/
def pyEqJ (a b : Json) : Bool :=
  match a.pyNumVal, b.pyNumVal with
  | some x, some y => x == y
  | some _, none => false
  | none, some _ => false
  | none, none => a == b

mutual

/-- Python `repr` of a JSON value (as interpolated by f-strings for
containers). -/
def Json.pyRepr : Json → String
  | .null => "None"
  | .bool true => "True"
  | .bool false => "False"
  | .num n => toString n
  | .str s => "\x27" ++ s ++ "\x27"
  | .arr xs => "[" ++ reprElems xs ++ "]"
  | .obj fs => "\x7b" ++ reprFields fs ++ "\x7d"

/-- `repr` of list elements, comma separated. -/
def reprElems : List Json → String
  | [] => ""
  | [x] => x.pyRepr
  | x :: y :: rest => x.pyRepr ++ ", " ++ reprElems (y :: rest)

/-- `repr` of dict items, comma separated. -/
def reprFields : List (String × Json) → String
  | [] => ""
  | [(k, v)] => "\x27" ++ k ++ "\x27: " ++ v.pyRepr
  | (k, v) :: f :: rest =>
    "\x27" ++ k ++ "\x27: " ++ v.pyRepr ++ ", " ++ reprFields (f :: rest)

end

/-- Python `str` of a JSON value (as interpolated by f-strings). -/
def Json.pyStr : Json → String
  | .str s => s
  | j => j.pyRepr

/-- Python `repr` of a list of strings (how `missing` lists render inside
f-strings). -/
def pyReprStrList (ks : List String) : String :=
  Json.pyRepr (.arr (ks.map Json.str))

/-- Python `repr` of a list of JSON values. -/
def pyReprJsonList (xs : List Json) : String :=
  Json.pyRepr (.arr xs)

/-- `", ".join(...)`, given already-stringified pieces. -/
def joinComma : List String → String
  | [] => ""
  | [x] => x
  | x :: y :: rest => x ++ ", " ++ joinComma (y :: rest)

/-- Each element of the joined list must be a `str` in Python, else
`", ".join` raises `TypeError`. -/
def joinStrs : List Json → Except PyErr (List String)
  | [] => .ok []
  | x :: rest =>
    match x with
    | .str s =>
      match joinStrs rest with
      | .error e => .error e
      | .ok ss => .ok (s :: ss)
    | _ => .error .typeError

/-- `BookPackValidator.load_json`: returns the parsed value if the file
exists and decodes, `none` if missing; a present-but-undecodable file emits
an error finding and yields `none` (lines 43-53). -/
def loadJson (p : Package) (relPath : String) : Option Json × List Finding :=
  match lookupKey p.files relPath with
  | none => (none, [])
  | some (.json v) => (some v, [])
  | some (.invalid e) => (none, [.err (relPath ++ ": invalid JSON — " ++ e)])

/-- `os.path.isfile` relative to the package root. -/
def Package.isFile (p : Package) (path : String) : Bool :=
  (lookupKey p.files path).isSome

/-- `[k for k in required if k not in meta]` (Python `in` may raise). -/
def missingFields (meta : Json) : List String → Except PyErr (List String)
  | [] => .ok []
  | k :: ks =>
    match pyContains k meta with
    | .error e => .error e
    | .ok b =>
      match missingFields meta ks with
      | .error e => .error e
      | .ok rest => .ok (if b then rest else k :: rest)

/-- `_check_book_json` (lines 106-131): load `book.json`, require the four
fields, check `schemaVersion == "1.0"` (error, but metadata still
returned), and warn on a dangling `coverImage`. -/
def checkBookJson (p : Package) : Except PyErr (Option Json × List Finding) :=
  match loadJson p "book.json" with
  | (none, fs0) => .ok (none, fs0 ++ [.err "book.json is missing or invalid"])
  | (some meta, fs0) =>
    match missingFields meta ["id", "title", "author", "schemaVersion"] with
    | .error e => .error e
    | .ok missing =>
      if !missing.isEmpty then
        .ok (none, fs0 ++ [.err ("book.json missing required fields: " ++ pyReprStrList missing)])
      else
        match pyGet meta "schemaVersion" .null with
        | .error e => .error e
        | .ok sv =>
          let fs1 :=
            if pyEqJ sv (.str "1.0") then fs0
            else fs0 ++ [.err ("book.json schemaVersion is \x27" ++ sv.pyStr
                  ++ "\x27, expected \x271.0\x27")]
          match pyGet meta "coverImage" .null with
          | .error e => .error e
          | .ok cover =>
            if pyTruthy cover then
              match cover with
              | .str c =>
                if !p.isFile c then
                  .ok (some meta, fs1 ++ [.wrn ("book.json references coverImage \x27" ++ c
                        ++ "\x27 but file not found")])
                else
                  .ok (some meta, fs1)
              | _ => .error .typeError
            else
              .ok (some meta, fs1)

/-- Per-entry loop body of `_check_chapters_index` (lines 148-151): one error
per required field missing from entry `i`. -/
def entryFieldFindings (i : Nat) (entry : Json) : List String → Except PyErr (List Finding)
  | [] => .ok []
  | f :: ftail =>
    match pyContains f entry with
    | .error e => .error e
    | .ok b =>
      match entryFieldFindings i entry ftail with
      | .error e => .error e
      | .ok rest =>
        .ok (if b then rest
             else .err ("chapters/index.json[" ++ toString i ++ "] missing \x27" ++ f ++ "\x27")
                  :: rest)

/-- The `for i, entry in enumerate(index)` loop of `_check_chapters_index`. -/
def entriesFindings (i : Nat) : List Json → Except PyErr (List Finding)
  | [] => .ok []
  | e :: rest =>
    match entryFieldFindings i e ["chapter", "snapshot", "delta"] with
    | .error er => .error er
    | .ok fs =>
      match entriesFindings (i + 1) rest with
      | .error er => .error er
      | .ok fs2 => .ok (fs ++ fs2)

/-- `_check_chapters_index` (lines 133-154): must be present, an array and
non-empty (each failure aborts the check with one error and no index);
per-entry missing-field errors do not abort. -/
def checkChaptersIndex (p : Package) : Except PyErr (Option (List Json) × List Finding) :=
  match loadJson p "chapters/index.json" with
  | (none, fs0) => .ok (none, fs0 ++ [.err "chapters/index.json is missing or invalid"])
  | (some v, fs0) =>
    match v with
    | .arr entries =>
      if entries.isEmpty then
        .ok (none, fs0 ++ [.err "chapters/index.json is empty"])
      else
        match entriesFindings 0 entries with
        | .error e => .error e
        | .ok fs1 => .ok (some entries, fs0 ++ fs1)
    | _ => .ok (none, fs0 ++ [.err "chapters/index.json is not an array"])

/-- Loop body of `_check_chapter_files` (lines 161-169): the optional missing
`(chapter, filename)` pair for the snapshot and for the delta of one entry.
`os.path.join` raises `TypeError` on a truthy non-string filename. -/
def chapterFileEntry (p : Package) (entry : Json) :
    Except PyErr (Option (Json × String) × Option (Json × String)) :=
  match pyGet entry "snapshot" (.str "") with
  | .error e => .error e
  | .ok snap =>
    match pyGet entry "delta" (.str "") with
    | .error e => .error e
    | .ok delta =>
      match pyGet entry "chapter" (.str "?") with
      | .error e => .error e
      | .ok ch =>
        let snapRes : Except PyErr (Option (Json × String)) :=
          if pyTruthy snap then
            match snap with
            | .str s => .ok (if !p.isFile ("chapters/" ++ s) then some (ch, s) else none)
            | _ => .error .typeError
          else
            .ok none
        match snapRes with
        | .error e => .error e
        | .ok snapMiss =>
          let deltaRes : Except PyErr (Option (Json × String)) :=
            if pyTruthy delta then
              match delta with
              | .str d => .ok (if !p.isFile ("chapters/" ++ d) then some (ch, d) else none)
              | _ => .error .typeError
            else
              .ok none
          match deltaRes with
          | .error e => .error e
          | .ok deltaMiss => .ok (snapMiss, deltaMiss)

/-- The collection loop of `_check_chapter_files`: accumulated
`missing_snapshots` and `missing_deltas`. -/
def chapterFilesScan (p : Package) : List Json →
    Except PyErr (List (Json × String) × List (Json × String))
  | [] => .ok ([], [])
  | entry :: rest =>
    match chapterFileEntry p entry with
    | .error e => .error e
    | .ok (sm, dm) =>
      match chapterFilesScan p rest with
      | .error e => .error e
      | .ok (ms, md) => .ok (sm.toList ++ ms, dm.toList ++ md)

/-- `f"ch{ch}:{f}"` for one missing pair. -/
def missPairMsg : Json × String → String
  | (ch, f) => "ch" ++ ch.pyStr ++ ":" ++ f

/-- `_check_chapter_files` (lines 156-187): one error per category listing
the count and the first 5 pairs, with an ellipsis when truncated. -/
def checkChapterFiles (p : Package) (index : List Json) : Except PyErr (List Finding) :=
  match chapterFilesScan p index with
  | .error e => .error e
  | .ok (missSnaps, missDeltas) =>
    let fsS : List Finding :=
      if missSnaps.isEmpty then []
      else [.err (toString missSnaps.length ++ " snapshot file(s) missing: "
            ++ joinComma ((missSnaps.take 5).map missPairMsg)
            ++ (if missSnaps.length > 5 then "..." else ""))]
    let fsD : List Finding :=
      if missDeltas.isEmpty then []
      else [.err (toString missDeltas.length ++ " delta file(s) missing: "
            ++ joinComma ((missDeltas.take 5).map missPairMsg)
            ++ (if missDeltas.length > 5 then "..." else ""))]
    .ok (fsS ++ fsD)

/-- `_check_chapter_count` (lines 189-197): `meta.get("chapterCount", 0)`
compared with the index length; mismatch is an error. -/
def checkChapterCount (meta : Json) (index : List Json) : Except PyErr (List Finding) :=
  match pyGet meta "chapterCount" (.num 0) with
  | .error e => .error e
  | .ok declared =>
    if pyEqJ declared (.num index.length) then .ok []
    else .ok [.err ("book.json chapterCount=" ++ declared.pyStr
          ++ " but chapters/index.json has " ++ toString index.length ++ " entries")]

/-- `_check_characters_index` (lines 199-210): absence or a non-dict value
is a warning only; a present-but-undecodable file additionally emits the
loader error. No Python operation here can raise. -/
def checkCharactersIndex (p : Package) : Option (List (String × Json)) × List Finding :=
  match loadJson p "characters/index.json" with
  | (none, fs0) => (none, fs0 ++ [.wrn "characters/index.json is missing or invalid"])
  | (some v, fs0) =>
    match v with
    | .obj chars => (some chars, fs0)
    | _ => (none, fs0 ++ [.wrn "characters/index.json is not a dict"])

/-- `_check_character_count` (lines 212-220): mismatch is a warning. -/
def checkCharacterCount (meta : Json) (chars : List (String × Json)) :
    Except PyErr (List Finding) :=
  match pyGet meta "characterCount" (.num 0) with
  | .error e => .error e
  | .ok declared =>
    if pyEqJ declared (.num chars.length) then .ok []
    else .ok [.wrn ("book.json characterCount=" ++ declared.pyStr
          ++ " but characters/index.json has " ++ toString chars.length ++ " entries")]

/-- The node loop of `_check_node_character_coverage` (lines 236-239):
collect truthy node IDs absent from the registry. -/
def coverageMissing (chars : List (String × Json)) : List Json → Except PyErr (List Json)
  | [] => .ok []
  | node :: rest =>
    match pyGet node "id" (.str "") with
    | .error e => .error e
    | .ok nid =>
      if pyTruthy nid then
        match pyDictMember nid chars with
        | .error e => .error e
        | .ok inChars =>
          match coverageMissing chars rest with
          | .error e => .error e
          | .ok ms => .ok (if inChars then ms else nid :: ms)
      else
        coverageMissing chars rest

/-- `_check_node_character_coverage` (lines 222-248): only the last index
entry's snapshot is loaded; a falsy snapshot value or a non-dict is
silently skipped; missing IDs are reported as one warning with count and
the first 10 IDs (ellipsis when more than 10). -/
def checkNodeCharacterCoverage (p : Package) (index : List Json)
    (chars : List (String × Json)) : Except PyErr (List Finding) :=
  match index.getLast? with
  | none => .error .indexError
  | some lastEntry =>
    match pyGet lastEntry "snapshot" (.str "") with
    | .error e => .error e
    | .ok snapFile =>
      if !pyTruthy snapFile then .ok []
      else
        match loadJson p ("chapters/" ++ snapFile.pyStr) with
        | (snapOpt, fs0) =>
          match snapOpt with
          | none => .ok fs0
          | some snap =>
            if !pyTruthy snap || !snap.isObj then .ok fs0
            else
              match pyGet snap "nodes" (.arr []) with
              | .error e => .error e
              | .ok nodes =>
                match pyIterate nodes with
                | .error e => .error e
                | .ok nodeList =>
                  match coverageMissing chars nodeList with
                  | .error e => .error e
                  | .ok missing =>
                    if missing.isEmpty then .ok fs0
                    else
                      match joinStrs (missing.take 10) with
                      | .error e => .error e
                      | .ok ss =>
                        .ok (fs0 ++ [.wrn (toString missing.length
                              ++ " node ID(s) not in characters/index.json: "
                              ++ joinComma ss
                              ++ (if missing.length > 10 then "..." else ""))])

/-- Loop body of `_check_no_empty_snapshots` (lines 253-262): the chapter
label collected when this entry's snapshot is a truthy dict whose `nodes`
has length 0, plus any loader finding for this entry. -/
def emptySnapEntry (p : Package) (entry : Json) :
    Except PyErr (List Json × List Finding) :=
  match pyGet entry "snapshot" (.str "") with
  | .error e => .error e
  | .ok snapFile =>
    match pyGet entry "chapter" (.str "?") with
    | .error e => .error e
    | .ok ch =>
      if !pyTruthy snapFile then .ok ([], [])
      else
        match loadJson p ("chapters/" ++ snapFile.pyStr) with
        | (snapOpt, fs0) =>
          match snapOpt with
          | none => .ok ([], fs0)
          | some snap =>
            if pyTruthy snap && snap.isObj then
              match pyGet snap "nodes" (.arr []) with
              | .error e => .error e
              | .ok nodes =>
                match pyLen nodes with
                | .error e => .error e
                | .ok n => .ok (if n == 0 then [ch] else [], fs0)
            else
              .ok ([], fs0)

/-- The full collection loop of `_check_no_empty_snapshots`. -/
def emptySnapAcc (p : Package) : List Json → Except PyErr (List Json × List Finding)
  | [] => .ok ([], [])
  | entry :: rest =>
    match emptySnapEntry p entry with
    | .error e => .error e
    | .ok (l1, f1) =>
      match emptySnapAcc p rest with
      | .error e => .error e
      | .ok (l2, f2) => .ok (l1 ++ l2, f1 ++ f2)

/-- The warning text of `_check_no_empty_snapshots` (line 265):
`f"{len(empty)} snapshot(s) have 0 nodes: chapters {empty[:10]}"`. -/
def mkEmptyMsg (empty : List Json) : String :=
  toString empty.length ++ " snapshot(s) have 0 nodes: chapters "
    ++ pyReprJsonList (empty.take 10)

/-- `_check_no_empty_snapshots` (lines 250-267). -/
def checkNoEmptySnapshots (p : Package) (index : List Json) : Except PyErr (List Finding) :=
  match emptySnapAcc p index with
  | .error e => .error e
  | .ok (empty, fs) =>
    if empty.isEmpty then .ok fs
    else .ok (fs ++ [.wrn (mkEmptyMsg empty)])

/-- Step 3 guard: `if chapter_index:` (a `None`-or-non-empty-list value). -/
def step3 (p : Package) (chapterIndex : Option (List Json)) : Except PyErr (List Finding) :=
  match chapterIndex with
  | some idx => if idx.isEmpty then .ok [] else checkChapterFiles p idx
  | none => .ok []

/-- Step 4 guard: `if book_meta and chapter_index:` (dict and list
truthiness). -/
def step4 (bookMeta : Option Json) (chapterIndex : Option (List Json)) :
    Except PyErr (List Finding) :=
  match bookMeta, chapterIndex with
  | some m, some idx =>
    if pyTruthy m && !idx.isEmpty then checkChapterCount m idx else .ok []
  | _, _ => .ok []

/-- Step 6 guard: `if book_meta and char_index:`. -/
def step6 (bookMeta : Option Json) (charIndex : Option (List (String × Json))) :
    Except PyErr (List Finding) :=
  match bookMeta, charIndex with
  | some m, some cs =>
    if pyTruthy m && !cs.isEmpty then checkCharacterCount m cs else .ok []
  | _, _ => .ok []

/-- Step 7 guard: `if chapter_index and char_index:`. -/
def step7 (p : Package) (chapterIndex : Option (List Json))
    (charIndex : Option (List (String × Json))) : Except PyErr (List Finding) :=
  match chapterIndex, charIndex with
  | some idx, some cs =>
    if !idx.isEmpty && !cs.isEmpty then checkNodeCharacterCoverage p idx cs else .ok []
  | _, _ => .ok []

/-- Step 8 guard: `if chapter_index:`. -/
def step8 (p : Package) (chapterIndex : Option (List Json)) : Except PyErr (List Finding) :=
  match chapterIndex with
  | some idx => if idx.isEmpty then .ok [] else checkNoEmptySnapshots p idx
  | none => .ok []

/-- The finding stream of `BookPackValidator.validate` (lines 55-93), in
emission order.  A missing package directory short-circuits with its single
error (lines 61-63). -/
def validateFindings (p : Package) : Except PyErr (List Finding) :=
  if !p.dirExists then
    .ok [.err ("Directory does not exist: " ++ p.bookDir)]
  else
    match checkBookJson p with
    | .error e => .error e
    | .ok (bookMeta, fs1) =>
      match checkChaptersIndex p with
      | .error e => .error e
      | .ok (chapterIndex, fs2) =>
        match step3 p chapterIndex with
        | .error e => .error e
        | .ok fs3 =>
          match step4 bookMeta chapterIndex with
          | .error e => .error e
          | .ok fs4 =>
            match checkCharactersIndex p with
            | (charIndex, fs5) =>
              match step6 bookMeta charIndex with
              | .error e => .error e
              | .ok fs6 =>
                match step7 p chapterIndex charIndex with
                | .error e => .error e
                | .ok fs7 =>
                  match step8 p chapterIndex with
                  | .error e => .error e
                  | .ok fs8 =>
                    .ok (fs1 ++ fs2 ++ fs3 ++ fs4 ++ fs5 ++ fs6 ++ fs7 ++ fs8)

/-- The error list determined by a finding stream: `self.error` appends its
message, and `self.warn` also appends its message when strict mode is on,
in emission order (lines 28-38). -/
def findingsErrors (strict : Bool) (fs : List Finding) : List String :=
  fs.filterMap fun f =>
    match f with
    | .err m => some m
    | .wrn m => if strict then some m else none

/-- The warning list determined by a finding stream. -/
def findingsWarnings (fs : List Finding) : List String :=
  fs.filterMap fun f =>
    match f with
    | .err _ => none
    | .wrn m => some m

/-- Aggregation (lines 94-104): the run passes exactly when the error list
is empty. -/
def mkResult (strict : Bool) (fs : List Finding) : VResult :=
  let errs := findingsErrors strict fs
  ⟨errs.isEmpty, errs, findingsWarnings fs⟩

/-- `BookPackValidator(book_dir, strict).validate()`: the returned boolean
and both accumulated lists, or the uncaught exception. -/
def validate (p : Package) (strict : Bool) : Except PyErr VResult :=
  match validateFindings p with
  | .error e => .error e
  | .ok fs => .ok (mkResult strict fs)

/-- Comparator for the claim that the character-registry condition leaves
the verdict unchanged.  Modelled from the spec: the same pipeline with the
character steps (registry load, character count, node coverage) removed. -/
def validateNoCharFindings (p : Package) : Except PyErr (List Finding) :=
  if !p.dirExists then
    .ok [.err ("Directory does not exist: " ++ p.bookDir)]
  else
    match checkBookJson p with
    | .error e => .error e
    | .ok (bookMeta, fs1) =>
      match checkChaptersIndex p with
      | .error e => .error e
      | .ok (chapterIndex, fs2) =>
        match step3 p chapterIndex with
        | .error e => .error e
        | .ok fs3 =>
          match step4 bookMeta chapterIndex with
          | .error e => .error e
          | .ok fs4 =>
            match step8 p chapterIndex with
            | .error e => .error e
            | .ok fs8 =>
              .ok (fs1 ++ fs2 ++ fs3 ++ fs4 ++ fs8)

/-- `validate` without character-related checks (spec comparator). -/
def validateNoCharacterChecks (p : Package) (strict : Bool) : Except PyErr VResult :=
  match validateNoCharFindings p with
  | .error e => .error e
  | .ok fs => .ok (mkResult strict fs)

/-- One entry of `os.listdir(books_dir)` in `build_catalog.py`: its name,
whether it is a directory, and (when a directory) its files keyed by path
relative to it. -/
structure BookDirEntry where
  name : String
  isDir : Bool
  files : List (String × FileData)
deriving DecidableEq

/-- The `books_dir` argument of `build_catalog`. -/
structure BooksDir where
  dirExists : Bool
  entries : List BookDirEntry
deriving DecidableEq

/-- The flattened record produced by `load_book_meta` (lines 39-46). -/
structure CatalogEntry where
  id : Json
  title : Json
  author : Json
  coverImage : Json
  chapterCount : Json
  characterCount : Json
deriving DecidableEq

/-- `load_book_meta` (lines 19-46): missing `book.json` or missing required
fields are skipped with an advisory stderr notice; `json.load` is not
wrapped in try/except, so an undecodable file raises. -/
def loadBookMeta (d : BookDirEntry) : Except PyErr (Option CatalogEntry × List String) :=
  match lookupKey d.files "book.json" with
  | none => .ok (none, ["  SKIP " ++ d.name ++ ": no book.json"])
  | some (.invalid _) => .error .decodeError
  | some (.json meta) =>
    match missingFields meta ["id", "title", "author"] with
    | .error e => .error e
    | .ok missing =>
      if !missing.isEmpty then
        .ok (none, ["  SKIP " ++ d.name ++ ": book.json missing " ++ pyReprStrList missing])
      else
        match pySubscr meta "id" with
        | .error e => .error e
        | .ok idv =>
          match pySubscr meta "title" with
          | .error e => .error e
          | .ok titlev =>
            match pySubscr meta "author" with
            | .error e => .error e
            | .ok authorv =>
              match pyGet meta "coverImage" .null with
              | .error e => .error e
              | .ok coverv =>
                match pyGet meta "chapterCount" (.num 0) with
                | .error e => .error e
                | .ok chcv =>
                  match pyGet meta "characterCount" (.num 0) with
                  | .error e => .error e
                  | .ok charcv =>
                    .ok (some ⟨idv, titlev, authorv, coverv, chcv, charcv⟩, [])

/-- Stable insertion used to model `sorted(os.listdir(books_dir))`. -/
def insertByName (d : BookDirEntry) : List BookDirEntry → List BookDirEntry
  | [] => [d]
  | e :: rest => if d.name ≤ e.name then d :: e :: rest else e :: insertByName d rest

/-- `sorted(...)` by entry name. -/
def sortByName : List BookDirEntry → List BookDirEntry
  | [] => []
  | d :: rest => insertByName d (sortByName rest)

/-- The scan loop of `build_catalog` (lines 57-64): skip non-directories,
skip entries for which `load_book_meta` returned `None`, append the rest. -/
def scanBooks : List BookDirEntry → Except PyErr (List CatalogEntry)
  | [] => .ok []
  | d :: rest =>
    if !d.isDir then scanBooks rest
    else
      match loadBookMeta d with
      | .error e => .error e
      | .ok (none, _) => scanBooks rest
      | .ok (some m, _) =>
        match scanBooks rest with
        | .error e => .error e
        | .ok cat => .ok (m :: cat)

/-- `build_catalog` (lines 49-66): `sys.exit(1)` when the books directory is
missing, otherwise the scan over the sorted listing (the returned value is
the `books` list of the emitted `{books: [...]}` document). -/
def buildCatalog (bd : BooksDir) : Except PyErr (List CatalogEntry) :=
  if !bd.dirExists then .error .systemExit
  else scanBooks (sortByName bd.entries)

/-- A directory "lacking a readable `book.json` containing id, title and
author": the file is absent, or decodes to an object missing one of the
three required fields. -/
def lacksBookMeta (d : BookDirEntry) : Bool :=
  match lookupKey d.files "book.json" with
  | none => true
  | some (.json (.obj flds)) =>
    (lookupKey flds "id").isNone || (lookupKey flds "title").isNone
      || (lookupKey flds "author").isNone
  | _ => false

/-- The characters/index.json conditions that are warning-only: the file is
absent, or decodes to a non-dict value.  (A present-but-undecodable file is
the third condition of the claim; it is recorded as a loader error.) -/
def charsAbsentOrNonDict (p : Package) : Bool :=
  match lookupKey p.files "characters/index.json" with
  | none => true
  | some (.json v) => !v.isObj
  | some (.invalid _) => false

/-- A field value that cannot make `os.path.join`/`in chars`/`join` raise:
absent, a string, or falsy (so the `if x:` guard skips it). -/
def fieldStrOrFalsy : Option Json → Bool
  | none => true
  | some (.str _) => true
  | some v => !pyTruthy v

/-- A chapter-index entry that no check can raise on: a dict whose
`snapshot` and `delta` are strings or falsy. -/
def entryShapeOk : Json → Bool
  | .obj efs => fieldStrOrFalsy (lookupKey efs "snapshot")
      && fieldStrOrFalsy (lookupKey efs "delta")
  | _ => false

/-- A snapshot node that no check can raise on: a dict whose `id` is a
string or falsy. -/
def nodeShapeOk : Json → Bool
  | .obj nfs => fieldStrOrFalsy (lookupKey nfs "id")
  | _ => false

/-- A file that the snapshot checks cannot raise on: undecodable, a
non-dict, or a dict whose `nodes` (defaulting to `[]`) is an array of
well-shaped nodes. -/
def fileShapeOk : FileData → Bool
  | .invalid _ => true
  | .json (.obj sfs) =>
    match (lookupKey sfs "nodes").getD (.arr []) with
    | .arr ns => ns.all nodeShapeOk
    | _ => false
  | .json _ => true

/-- `book.json` shapes that `_check_book_json` cannot raise on. -/
def bookShapeOk (p : Package) : Bool :=
  match lookupKey p.files "book.json" with
  | none => true
  | some (.invalid _) => true
  | some (.json (.obj flds)) => fieldStrOrFalsy (lookupKey flds "coverImage")
  | some (.json _) => false

/-- `chapters/index.json` shapes that the chapter checks cannot raise on. -/
def chapIdxShapeOk (p : Package) : Bool :=
  match lookupKey p.files "chapters/index.json" with
  | some (.json (.arr es)) => es.isEmpty || es.all entryShapeOk
  | _ => true

/-- Packages on which no check raises an uncaught exception. -/
def wellShaped (p : Package) : Bool :=
  bookShapeOk p && chapIdxShapeOk p && p.files.all fun kv => fileShapeOk kv.2

/-- `book.json` contents of the fully valid one-chapter example package. -/
def bkFields : List (String × Json) :=
  [("id", .str "bk"), ("title", .str "T"), ("author", .str "A"),
   ("schemaVersion", .str "1.0"), ("chapterCount", .num 1), ("characterCount", .num 1)]

/-- One chapter-index entry `{chapter: 1, snapshot: "s1.json", delta: "d1.json"}`. -/
def entry1 : Json :=
  .obj [("chapter", .num 1), ("snapshot", .str "s1.json"), ("delta", .str "d1.json")]

/-- The referential-check package of the spec: final snapshot with nodes
`alyosha` and `zosima`, registry with only `alyosha`. -/
def pkg8 : Package :=
  ⟨"/books/bk", true,
   [("book.json", .json (.obj bkFields)),
    ("chapters/index.json", .json (.arr [entry1])),
    ("chapters/s1.json", .json (.obj [("nodes",
      .arr [.obj [("id", .str "alyosha")], .obj [("id", .str "zosima")]])])),
    ("chapters/d1.json", .json (.obj [("ops", .arr [])])),
    ("characters/index.json", .json (.obj [("alyosha", .obj [("name", .str "Alyosha")])]))]⟩

/-- Same package with an id-less node inserted in the final snapshot. -/
def pkg8b : Package :=
  ⟨"/books/bk", true,
   [("book.json", .json (.obj bkFields)),
    ("chapters/index.json", .json (.arr [entry1])),
    ("chapters/s1.json", .json (.obj [("nodes",
      .arr [.obj [("id", .str "alyosha")], .obj [], .obj [("id", .str "zosima")]])])),
    ("chapters/d1.json", .json (.obj [("ops", .arr [])])),
    ("characters/index.json", .json (.obj [("alyosha", .obj [("name", .str "Alyosha")])]))]⟩

/-- Package whose `characters/index.json` exists but is not decodable
JSON. -/
def pkgCharsInvalid : Package :=
  ⟨"/books/bk", true,
   [("book.json", .json (.obj bkFields)),
    ("chapters/index.json", .json (.arr [entry1])),
    ("chapters/s1.json", .json (.obj [("nodes",
      .arr [.obj [("id", .str "alyosha")], .obj [("id", .str "zosima")]])])),
    ("chapters/d1.json", .json (.obj [("ops", .arr [])])),
    ("characters/index.json", .invalid "Expecting value: line 1 column 1 (char 0)")]⟩

/-- Package with no `characters/index.json` at all (otherwise valid). -/
def pkgCharsAbsent : Package :=
  ⟨"/books/bk", true,
   [("book.json", .json (.obj bkFields)),
    ("chapters/index.json", .json (.arr [entry1])),
    ("chapters/s1.json", .json (.obj [("nodes",
      .arr [.obj [("id", .str "alyosha")], .obj [("id", .str "zosima")]])])),
    ("chapters/d1.json", .json (.obj [("ops", .arr [])]))]⟩

/-- Valid book, empty chapter index, non-dict character registry. -/
def pkgEmptyIdx : Package :=
  ⟨"/books/bk", true,
   [("book.json", .json (.obj [("id", .str "bk"), ("title", .str "T"),
      ("author", .str "A"), ("schemaVersion", .str "1.0")])),
    ("chapters/index.json", .json (.arr [])),
    ("characters/index.json", .json (.num 5))]⟩

/-- Nearly empty package: only an empty chapter index. -/
def pkgEmptyIdxBare : Package :=
  ⟨"/books/bk", true, [("chapters/index.json", .json (.arr []))]⟩

/-- Package whose only chapter-index entry is the number 5 (not an
object). -/
def pkgNumEntry : Package :=
  ⟨"/books/bk", true, [("chapters/index.json", .json (.arr [.num 5]))]⟩

/-- Fully valid package whose single snapshot is the empty object `{}`. -/
def pkgEmptyObjSnap : Package :=
  ⟨"/books/bk", true,
   [("book.json", .json (.obj [("id", .str "bk"), ("title", .str "T"),
      ("author", .str "A"), ("schemaVersion", .str "1.0"),
      ("chapterCount", .num 1), ("characterCount", .num 0)])),
    ("chapters/index.json", .json (.arr [entry1])),
    ("chapters/s1.json", .json (.obj [])),
    ("chapters/d1.json", .json (.obj [("ops", .arr [])])),
    ("characters/index.json", .json (.obj []))]⟩

/-- Same package except the snapshot is `{"nodes": []}` (a truthy dict with
zero nodes). -/
def pkgZeroNodesSnap : Package :=
  ⟨"/books/bk", true,
   [("book.json", .json (.obj [("id", .str "bk"), ("title", .str "T"),
      ("author", .str "A"), ("schemaVersion", .str "1.0"),
      ("chapterCount", .num 1), ("characterCount", .num 0)])),
    ("chapters/index.json", .json (.arr [entry1])),
    ("chapters/s1.json", .json (.obj [("nodes", .arr [])])),
    ("chapters/d1.json", .json (.obj [("ops", .arr [])])),
    ("characters/index.json", .json (.obj []))]⟩

/-- An index entry `{chapter: i, snapshot: "si", delta: "di"}`. -/
def entryN (i : Nat) : Json :=
  .obj [("chapter", .num i), ("snapshot", .str ("s" ++ toString i)),
        ("delta", .str ("d" ++ toString i))]

/-- The chapter files (all snapshots `{"nodes": []}`) for chapters 1..n. -/
def chapterFilesN : Nat → List (String × FileData)
  | 0 => []
  | n + 1 => chapterFilesN n
      ++ [("chapters/s" ++ toString (n + 1), .json (.obj [("nodes", .arr [])])),
          ("chapters/d" ++ toString (n + 1), .json .null)]

/-- Package with 11 chapters, every snapshot having zero nodes. -/
def pkgEleven : Package :=
  ⟨"/books/bk", true,
   [("book.json", .json (.obj [("id", .str "bk"), ("title", .str "T"),
      ("author", .str "A"), ("schemaVersion", .str "1.0"),
      ("chapterCount", .num 11), ("characterCount", .num 1)])),
    ("chapters/index.json", .json (.arr ((List.range 11).map fun i => entryN (i + 1)))),
    ("characters/index.json", .json (.obj [("x", .null)]))]
   ++ chapterFilesN 11⟩

/-- Valid book metadata that omits `chapterCount`. -/
def pkgNoChapterCount : Package :=
  ⟨"/books/bk", true,
   [("book.json", .json (.obj [("id", .str "bk"), ("title", .str "T"),
      ("author", .str "A"), ("schemaVersion", .str "1.0")])),
    ("chapters/index.json", .json (.arr [entry1])),
    ("chapters/s1.json", .json (.obj [("nodes", .arr [.obj [("id", .str "a")]])])),
    ("chapters/d1.json", .json .null)]⟩

/-- A package directory that does not exist. -/
def pkgNoDir : Package := ⟨"/books/missing", false, []⟩

/-- Catalog-builder directory entries. -/
def dirGood : BookDirEntry :=
  ⟨"good", true, [("book.json", .json (.obj [("id", .str "g"), ("title", .str "T"),
    ("author", .str "A")]))]⟩

/-- A directory whose `book.json` is not decodable JSON. -/
def dirBadJson : BookDirEntry :=
  ⟨"bad", true, [("book.json", .invalid "Expecting value: line 1 column 1 (char 0)")]⟩

/-- A directory with no `book.json`. -/
def dirNoBook : BookDirEntry := ⟨"empty", true, []⟩

lemma validate_ok_elim {p : Package} {strict : Bool} {r : VResult}
    (h : validate p strict = .ok r) :
    ∃ fs, validateFindings p = .ok fs ∧ r = mkResult strict fs := by
  cases hf : validateFindings p with
  | error e => rw [validate, hf] at h; cases h
  | ok fs =>
    rw [validate, hf] at h
    injection h with h1
    exact ⟨fs, rfl, h1.symm⟩

lemma validateNoChar_ok_elim {p : Package} {strict : Bool} {r : VResult}
    (h : validateNoCharacterChecks p strict = .ok r) :
    ∃ fs, validateNoCharFindings p = .ok fs ∧ r = mkResult strict fs := by
  cases hf : validateNoCharFindings p with
  | error e => rw [validateNoCharacterChecks, hf] at h; cases h
  | ok fs =>
    rw [validateNoCharacterChecks, hf] at h
    injection h with h1
    exact ⟨fs, rfl, h1.symm⟩

lemma findingsErrors_append (strict : Bool) (a b : List Finding) :
    findingsErrors strict (a ++ b) = findingsErrors strict a ++ findingsErrors strict b :=
  List.filterMap_append a b _

lemma findingsWarnings_append (a b : List Finding) :
    findingsWarnings (a ++ b) = findingsWarnings a ++ findingsWarnings b :=
  List.filterMap_append a b _

lemma warnings_sublist_strict_errors (fs : List Finding) :
    (findingsWarnings fs).Sublist (findingsErrors true fs) := by
  induction fs with
  | nil => exact .slnil
  | cons f rest ih =>
    cases f with
    | err m =>
      simp only [findingsWarnings, findingsErrors, List.filterMap_cons] at *
      exact ih.cons m
    | wrn m =>
      simp only [findingsWarnings, findingsErrors, List.filterMap_cons] at *
      exact ih.cons₂ m

lemma mem_findingsErrors_of_err {m : String} {fs : List Finding} (strict : Bool)
    (h : Finding.err m ∈ fs) : m ∈ findingsErrors strict fs := by
  rw [findingsErrors, List.mem_filterMap]
  exact ⟨.err m, h, rfl⟩

lemma leadsWith_append (pfx a b : List Char) (h : leadsWith pfx a = true) :
    leadsWith pfx (a ++ b) = true := by
  induction pfx generalizing a with
  | nil => rfl
  | cons c cs ih =>
    cases a with
    | nil => cases h
    | cons d ds =>
      simp only [leadsWith, Bool.and_eq_true, decide_eq_true_eq, List.cons_append] at h ⊢
      exact ⟨h.1, ih ds h.2⟩

lemma leadsWith_str_append (pfx : List Char) (a b : String)
    (h : leadsWith pfx a.data = true) : leadsWith pfx (a ++ b).data = true := by
  rw [String.data_append]
  exact leadsWith_append _ _ _ h

lemma ne_of_leadsWith {a b : String} (pfx : List Char)
    (ha : leadsWith pfx a.data = true) (hb : leadsWith pfx b.data = false) : a ≠ b := by
  intro h
  rw [h] at ha
  rw [ha] at hb
  cases hb

/-- C9: running `validate` twice with the same strict flag on the same
unmodified package yields identical error and warning lists (validation is
a deterministic pure function of the package value in this embedding,
which never modifies the package). -/
theorem validate_deterministic (p : Package) (strict : Bool) (r₁ r₂ : VResult)
    (h₁ : validate p strict = .ok r₁) (h₂ : validate p strict = .ok r₂) :
    r₁.errors = r₂.errors ∧ r₁.warnings = r₂.warnings ∧ r₁ = r₂ := by
  have h : r₁ = r₂ := by
    have h0 := h₁.symm.trans h₂
    injection h0
  exact ⟨h ▸ rfl, h ▸ rfl, h⟩

/-- Witness for C9 at the concrete referential-check package. -/
theorem validate_deterministic_witness :
    VResult.errors ⟨true, [], ["1 node ID(s) not in characters/index.json: zosima"]⟩
      = VResult.errors ⟨true, [], ["1 node ID(s) not in characters/index.json: zosima"]⟩
    ∧ VResult.warnings ⟨true, [], ["1 node ID(s) not in characters/index.json: zosima"]⟩
      = VResult.warnings ⟨true, [], ["1 node ID(s) not in characters/index.json: zosima"]⟩
    ∧ (⟨true, [], ["1 node ID(s) not in characters/index.json: zosima"]⟩ : VResult)
      = ⟨true, [], ["1 node ID(s) not in characters/index.json: zosima"]⟩ :=
  validate_deterministic pkg8 false _ _ rfl rfl

/-- C2: with strict mode on, every warning is double-recorded (the warning
list is a sublist of the error list) and a run with any warning fails; with
strict mode off, an empty error list always passes. -/
theorem strict_mode_semantics :
    (∀ p r, validate p true = .ok r →
      r.warnings.Sublist r.errors ∧ (r.warnings ≠ [] → r.passed = false))
  ∧ (∀ p r, validate p false = .ok r → r.errors = [] → r.passed = true) := by
  constructor
  · intro p r h
    obtain ⟨fs, _, rfl⟩ := validate_ok_elim h
    refine ⟨warnings_sublist_strict_errors fs, fun hne => ?_⟩
    cases hE : findingsErrors true fs with
    | nil =>
      exfalso
      apply hne
      have hs := warnings_sublist_strict_errors fs
      rw [hE] at hs
      simpa [mkResult] using List.sublist_nil.mp hs
    | cons a l =>
      simp [mkResult, hE]
  · intro p r h he
    obtain ⟨fs, _, rfl⟩ := validate_ok_elim h
    simp only [mkResult] at he ⊢
    rw [he]
    rfl

/-- Witness for C2: a strict run with one warning fails, and a non-strict
clean-error run passes. -/
theorem strict_mode_semantics_witness :
    (VResult.warnings ⟨false, ["1 node ID(s) not in characters/index.json: zosima"],
        ["1 node ID(s) not in characters/index.json: zosima"]⟩).Sublist
      (VResult.errors ⟨false, ["1 node ID(s) not in characters/index.json: zosima"],
        ["1 node ID(s) not in characters/index.json: zosima"]⟩)
    ∧ (VResult.warnings ⟨false, ["1 node ID(s) not in characters/index.json: zosima"],
        ["1 node ID(s) not in characters/index.json: zosima"]⟩ ≠ [] →
       VResult.passed ⟨false, ["1 node ID(s) not in characters/index.json: zosima"],
        ["1 node ID(s) not in characters/index.json: zosima"]⟩ = false)
    ∧ VResult.passed ⟨true, [], ["1 node ID(s) not in characters/index.json: zosima"]⟩
        = true :=
  ⟨(strict_mode_semantics.1 pkg8 _ rfl).1, (strict_mode_semantics.1 pkg8 _ rfl).2,
   strict_mode_semantics.2 pkg8 _ rfl rfl⟩


/-- All findings of `_check_book_json` carry messages starting with
`book.json`. -/
lemma checkBookJson_msgs {p : Package} {mo : Option Json} {fs : List Finding}
    (h : checkBookJson p = .ok (mo, fs)) :
    ∀ f ∈ fs, leadsWith "book.json".data f.msgOf.data = true := by
  cases hlk : lookupKey p.files "book.json" with
  | none =>
    simp only [checkBookJson, loadJson, hlk, List.nil_append, Except.ok.injEq,
      Prod.mk.injEq] at h
    obtain ⟨h1, h2⟩ := h
    subst h2
    simp only [List.forall_mem_singleton]
    decide
  | some fd =>
    cases fd with
    | invalid e =>
      simp only [checkBookJson, loadJson, hlk, Except.ok.injEq, Prod.mk.injEq] at h
      obtain ⟨h1, h2⟩ := h
      subst h2
      simp only [List.forall_mem_append, List.forall_mem_singleton]
      exact ⟨leadsWith_str_append _ _ _ (by decide), by decide⟩
    | json meta =>
      cases hmf : missingFields meta ["id", "title", "author", "schemaVersion"] with
      | error e =>
        simp only [checkBookJson, loadJson, hlk, hmf] at h
        exact Except.noConfusion h
      | ok missing =>
        by_cases hm : missing.isEmpty
        · cases hsv : pyGet meta "schemaVersion" Json.null with
          | error e =>
            simp only [checkBookJson, loadJson, hlk, hmf, hm, Bool.not_true,
              Bool.false_eq_true, if_false, hsv] at h
            exact Except.noConfusion h
          | ok sv =>
            have hIf : ∀ f ∈ (if pyEqJ sv (Json.str "1.0") then ([] : List Finding)
                else [Finding.err ("book.json schemaVersion is \x27" ++ sv.pyStr
                  ++ "\x27, expected \x271.0\x27")]),
                leadsWith "book.json".data f.msgOf.data = true := by
              split
              · simp
              · simp only [List.forall_mem_singleton]
                exact leadsWith_str_append _ _ _ (leadsWith_str_append _ _ _ (by decide))
            cases hcv : pyGet meta "coverImage" Json.null with
            | error e =>
              simp only [checkBookJson, loadJson, hlk, hmf, hm, Bool.not_true,
                Bool.false_eq_true, if_false, hsv, hcv] at h
              exact Except.noConfusion h
            | ok cover =>
              by_cases htr : pyTruthy cover
              · cases cover with
                | str c =>
                  by_cases hcf : p.isFile c
                  · simp only [checkBookJson, loadJson, hlk, hmf, hm, Bool.not_true,
                      Bool.false_eq_true, if_false, if_true, hsv, hcv, htr, hcf,
                      List.nil_append, Except.ok.injEq, Prod.mk.injEq] at h
                    obtain ⟨h1, h2⟩ := h
                    subst h2
                    exact hIf
                  · simp only [checkBookJson, loadJson, hlk, hmf, hm, Bool.not_true,
                      Bool.false_eq_true, if_false, if_true, hsv, hcv, htr, hcf,
                      Bool.not_false, List.nil_append, Except.ok.injEq,
                      Prod.mk.injEq] at h
                    obtain ⟨h1, h2⟩ := h
                    subst h2
                    simp only [List.forall_mem_append, List.forall_mem_singleton]
                    refine ⟨hIf, ?_⟩
                    exact leadsWith_str_append _ _ _ (leadsWith_str_append _ _ _ (by decide))
                | null =>
                  exact absurd htr (by decide)
                | bool b =>
                  simp only [checkBookJson, loadJson, hlk, hmf, hm, Bool.not_true,
                    Bool.false_eq_true, if_false, if_true, hsv, hcv, htr] at h
                  exact Except.noConfusion h
                | num n =>
                  simp only [checkBookJson, loadJson, hlk, hmf, hm, Bool.not_true,
                    Bool.false_eq_true, if_false, if_true, hsv, hcv, htr] at h
                  exact Except.noConfusion h
                | arr xs =>
                  simp only [checkBookJson, loadJson, hlk, hmf, hm, Bool.not_true,
                    Bool.false_eq_true, if_false, if_true, hsv, hcv, htr] at h
                  exact Except.noConfusion h
                | obj ofs =>
                  simp only [checkBookJson, loadJson, hlk, hmf, hm, Bool.not_true,
                    Bool.false_eq_true, if_false, if_true, hsv, hcv, htr] at h
                  exact Except.noConfusion h
              · simp only [checkBookJson, loadJson, hlk, hmf, hm, Bool.not_true,
                  Bool.false_eq_true, if_false, hsv, hcv, htr, List.nil_append,
                  Except.ok.injEq, Prod.mk.injEq] at h
                obtain ⟨h1, h2⟩ := h
                subst h2
                exact hIf
        · simp only [checkBookJson, loadJson, hlk, hmf, hm, Bool.not_false, if_true,
            List.nil_append, Except.ok.injEq, Prod.mk.injEq] at h
          obtain ⟨h1, h2⟩ := h
          subst h2
          simp only [List.forall_mem_singleton]
          exact leadsWith_str_append _ _ _ (by decide)

/-- All findings of `_check_characters_index` carry messages starting with
`characters/index.json`. -/
lemma checkCharactersIndex_msgs {p : Package} {co : Option (List (String × Json))}
    {fs : List Finding} (h : checkCharactersIndex p = (co, fs)) :
    ∀ f ∈ fs, leadsWith "characters/index.json".data f.msgOf.data = true := by
  cases hlk : lookupKey p.files "characters/index.json" with
  | none =>
    simp only [checkCharactersIndex, loadJson, hlk, List.nil_append, Prod.mk.injEq] at h
    obtain ⟨h1, h2⟩ := h
    subst h2
    simp only [List.forall_mem_singleton]
    decide
  | some fd =>
    cases fd with
    | invalid e =>
      simp only [checkCharactersIndex, loadJson, hlk, Prod.mk.injEq] at h
      obtain ⟨h1, h2⟩ := h
      subst h2
      simp only [List.forall_mem_append, List.forall_mem_singleton]
      exact ⟨leadsWith_str_append _ _ _ (by decide), by decide⟩
    | json v =>
      cases v with
      | obj chars =>
        simp only [checkCharactersIndex, loadJson, hlk, Prod.mk.injEq] at h
        obtain ⟨h1, h2⟩ := h
        subst h2
        simp
      | null =>
        simp only [checkCharactersIndex, loadJson, hlk, Prod.mk.injEq] at h
        obtain ⟨h1, h2⟩ := h
        subst h2
        simp only [List.nil_append, List.forall_mem_singleton]
        decide
      | bool b =>
        simp only [checkCharactersIndex, loadJson, hlk, Prod.mk.injEq] at h
        obtain ⟨h1, h2⟩ := h
        subst h2
        simp only [List.nil_append, List.forall_mem_singleton]
        decide
      | num n =>
        simp only [checkCharactersIndex, loadJson, hlk, Prod.mk.injEq] at h
        obtain ⟨h1, h2⟩ := h
        subst h2
        simp only [List.nil_append, List.forall_mem_singleton]
        decide
      | str s =>
        simp only [checkCharactersIndex, loadJson, hlk, Prod.mk.injEq] at h
        obtain ⟨h1, h2⟩ := h
        subst h2
        simp only [List.nil_append, List.forall_mem_singleton]
        decide
      | arr xs =>
        simp only [checkCharactersIndex, loadJson, hlk, Prod.mk.injEq] at h
        obtain ⟨h1, h2⟩ := h
        subst h2
        simp only [List.nil_append, List.forall_mem_singleton]
        decide

/-- All findings of the guarded character-count step carry messages starting
with `book.json`. -/
lemma step6_msgs {bm : Option Json} {ci : Option (List (String × Json))}
    {fs : List Finding} (h : step6 bm ci = .ok fs) :
    ∀ f ∈ fs, leadsWith "book.json".data f.msgOf.data = true := by
  cases bm with
  | none =>
    simp only [step6] at h
    injection h with h1
    subst h1
    simp
  | some m =>
    cases ci with
    | none =>
      simp only [step6] at h
      injection h with h1
      subst h1
      simp
    | some cs =>
      simp only [step6] at h
      by_cases hg : pyTruthy m && !cs.isEmpty
      · rw [if_pos hg] at h
        cases hget : pyGet m "characterCount" (Json.num 0) with
        | error e =>
          simp only [checkCharacterCount, hget] at h
          exact Except.noConfusion h
        | ok declared =>
          simp only [checkCharacterCount, hget] at h
          by_cases he : pyEqJ declared (.num cs.length)
          · rw [if_pos he] at h
            injection h with h1
            subst h1
            simp
          · rw [if_neg he] at h
            injection h with h1
            subst h1
            simp only [List.forall_mem_singleton]
            exact leadsWith_str_append _ _ _ (leadsWith_str_append _ _ _
              (leadsWith_str_append _ _ _ (leadsWith_str_append _ _ _ (by decide))))
      · rw [if_neg hg] at h
        injection h with h1
        subst h1
        simp

/-- A successfully returned chapter index is the decoded non-empty array of
`chapters/index.json`. -/
lemma checkChaptersIndex_ok_src {p : Package} {idx : List Json} {fs : List Finding}
    (h : checkChaptersIndex p = .ok (some idx, fs)) :
    lookupKey p.files "chapters/index.json" = some (.json (.arr idx)) ∧ idx ≠ [] := by
  cases hlk : lookupKey p.files "chapters/index.json" with
  | none =>
    simp only [checkChaptersIndex, loadJson, hlk, Except.ok.injEq, Prod.mk.injEq] at h
    exact absurd h.1 (by simp)
  | some fd =>
    cases fd with
    | invalid e =>
      simp only [checkChaptersIndex, loadJson, hlk, Except.ok.injEq, Prod.mk.injEq] at h
      exact absurd h.1 (by simp)
    | json v =>
      cases v with
      | arr entries =>
        by_cases hne : entries.isEmpty
        · simp only [checkChaptersIndex, loadJson, hlk, hne, if_true, Except.ok.injEq,
            Prod.mk.injEq] at h
          exact absurd h.1 (by simp)
        · cases hef : entriesFindings 0 entries with
          | error e =>
            simp only [checkChaptersIndex, loadJson, hlk, hne, Bool.false_eq_true,
              if_false, hef] at h
            exact Except.noConfusion h
          | ok fs1 =>
            simp only [checkChaptersIndex, loadJson, hlk, hne, Bool.false_eq_true,
              if_false, hef, Except.ok.injEq, Prod.mk.injEq] at h
            obtain ⟨h1, h2⟩ := h
            injection h1 with h1
            subst h1
            refine ⟨rfl, ?_⟩
            intro hnil
            rw [hnil] at hne
            exact hne rfl
      | null =>
        simp only [checkChaptersIndex, loadJson, hlk, Except.ok.injEq, Prod.mk.injEq] at h
        exact absurd h.1 (by simp)
      | bool b =>
        simp only [checkChaptersIndex, loadJson, hlk, Except.ok.injEq, Prod.mk.injEq] at h
        exact absurd h.1 (by simp)
      | num n =>
        simp only [checkChaptersIndex, loadJson, hlk, Except.ok.injEq, Prod.mk.injEq] at h
        exact absurd h.1 (by simp)
      | str s =>
        simp only [checkChaptersIndex, loadJson, hlk, Except.ok.injEq, Prod.mk.injEq] at h
        exact absurd h.1 (by simp)
      | obj fs2 =>
        simp only [checkChaptersIndex, loadJson, hlk, Except.ok.injEq, Prod.mk.injEq] at h
        exact absurd h.1 (by simp)

lemma count_findingsErrors_zero {fs : List Finding} {t : String} (strict : Bool)
    (pfx : List Char)
    (hall : ∀ f ∈ fs, leadsWith pfx f.msgOf.data = true)
    (ht : leadsWith pfx t.data = false) :
    (findingsErrors strict fs).count t = 0 := by
  rw [List.count_eq_zero]
  intro hmem
  rw [findingsErrors, List.mem_filterMap] at hmem
  obtain ⟨f, hf, hmf⟩ := hmem
  have hl := hall f hf
  cases f with
  | err m =>
    simp only [Finding.msgOf] at hl
    simp only at hmf
    injection hmf with hmt
    subst hmt
    rw [hl] at ht
    cases ht
  | wrn m =>
    simp only [Finding.msgOf] at hl
    cases strict with
    | false => simp at hmf
    | true =>
      simp only [if_true] at hmf
      injection hmf with hmt
      subst hmt
      rw [hl] at ht
      cases ht


lemma step3_none (p : Package) : step3 p none = .ok [] := rfl

lemma step4_none (bm : Option Json) : step4 bm none = .ok [] := by cases bm <;> rfl

lemma step7_none (p : Package) (co : Option (List (String × Json))) :
    step7 p none co = .ok [] := by cases co <;> rfl

lemma step8_none (p : Package) : step8 p none = .ok [] := rfl

/-- C3 (amended): for every package whose `chapters/index.json` decodes to
an empty array, `validate` fails with exactly one error citing emptiness
and no downstream chapter check runs — but the character-registry and
character-count checks still execute: the whole finding stream is exactly
the book check, the emptiness error, the character-registry check and the
character-count step. -/
theorem empty_chapter_index (p : Package) (strict : Bool) (r : VResult)
    (hd : p.dirExists = true)
    (hch : lookupKey p.files "chapters/index.json" = some (.json (.arr [])))
    (h : validate p strict = .ok r) :
    r.passed = false ∧
    r.errors.count "chapters/index.json is empty" = 1 ∧
    ∃ bm fs1 co fs5 fs6, checkBookJson p = .ok (bm, fs1)
      ∧ checkCharactersIndex p = (co, fs5)
      ∧ step6 bm co = .ok fs6
      ∧ r.errors = findingsErrors strict
          (fs1 ++ [.err "chapters/index.json is empty"] ++ fs5 ++ fs6)
      ∧ r.warnings = findingsWarnings
          (fs1 ++ [.err "chapters/index.json is empty"] ++ fs5 ++ fs6) := by
  obtain ⟨fs, hfs, rfl⟩ := validate_ok_elim h
  have hci : checkChaptersIndex p = .ok (none, [.err "chapters/index.json is empty"]) := by
    simp [checkChaptersIndex, loadJson, hch]
  cases hbj : checkBookJson p with
  | error e =>
    rw [validateFindings, hd] at hfs
    simp only [Bool.not_true, Bool.false_eq_true, if_false, hbj] at hfs
    exact Except.noConfusion hfs
  | ok pr =>
    obtain ⟨bm, fs1⟩ := pr
    cases hcc : checkCharactersIndex p with
    | mk co fs5 =>
      cases hs6 : step6 bm co with
      | error e =>
        rw [validateFindings, hd] at hfs
        simp only [Bool.not_true, Bool.false_eq_true, if_false, hbj, hci, step3_none,
          step4_none, step7_none, step8_none, hcc, hs6] at hfs
        exact Except.noConfusion hfs
      | ok fs6 =>
        rw [validateFindings, hd] at hfs
        simp only [Bool.not_true, Bool.false_eq_true, if_false, hbj, hci, step3_none,
          step4_none, step7_none, step8_none, hcc, hs6] at hfs
        have hfs' : fs = fs1 ++ [.err "chapters/index.json is empty"] ++ fs5 ++ fs6 := by
          injection hfs with h1
          rw [← h1]
          simp
        subst hfs'
        have hcount : (findingsErrors strict
            (fs1 ++ [.err "chapters/index.json is empty"] ++ fs5 ++ fs6)).count
              "chapters/index.json is empty" = 1 := by
          rw [findingsErrors_append, findingsErrors_append, findingsErrors_append]
          rw [List.count_append, List.count_append, List.count_append]
          rw [count_findingsErrors_zero strict "book.json".data
            (checkBookJson_msgs hbj) (by decide)]
          rw [count_findingsErrors_zero strict "characters/index.json".data
            (checkCharactersIndex_msgs hcc) (by decide)]
          rw [count_findingsErrors_zero strict "book.json".data
            (step6_msgs hs6) (by decide)]
          have h1 : findingsErrors strict [Finding.err "chapters/index.json is empty"]
              = ["chapters/index.json is empty"] := by
            cases strict <;> rfl
          rw [h1]
          simp
        have hmem : "chapters/index.json is empty" ∈ findingsErrors strict
            (fs1 ++ [.err "chapters/index.json is empty"] ++ fs5 ++ fs6) := by
          apply mem_findingsErrors_of_err
          simp
        have hpassed : (mkResult strict
            (fs1 ++ [.err "chapters/index.json is empty"] ++ fs5 ++ fs6)).passed = false := by
          show (findingsErrors strict
            (fs1 ++ [.err "chapters/index.json is empty"] ++ fs5 ++ fs6)).isEmpty = false
          cases hE : findingsErrors strict
              (fs1 ++ [.err "chapters/index.json is empty"] ++ fs5 ++ fs6) with
          | nil => rw [hE] at hmem; cases hmem
          | cons a l => rfl
        refine ⟨hpassed, hcount, ?_⟩
        exact ⟨bm, fs1, co, fs5, fs6, rfl, rfl, hs6, rfl, rfl⟩

/-- Witness for C3 at a package containing only an empty chapter index. -/
theorem empty_chapter_index_witness :
    VResult.passed ⟨false, ["book.json is missing or invalid", "chapters/index.json is empty"],
      ["characters/index.json is missing or invalid"]⟩ = false
    ∧ (VResult.errors ⟨false,
        ["book.json is missing or invalid", "chapters/index.json is empty"],
        ["characters/index.json is missing or invalid"]⟩).count
        "chapters/index.json is empty" = 1
    ∧ ∃ bm fs1 co fs5 fs6, checkBookJson pkgEmptyIdxBare = .ok (bm, fs1)
      ∧ checkCharactersIndex pkgEmptyIdxBare = (co, fs5)
      ∧ step6 bm co = .ok fs6
      ∧ VResult.errors ⟨false,
          ["book.json is missing or invalid", "chapters/index.json is empty"],
          ["characters/index.json is missing or invalid"]⟩ = findingsErrors false
          (fs1 ++ [.err "chapters/index.json is empty"] ++ fs5 ++ fs6)
      ∧ VResult.warnings ⟨false,
          ["book.json is missing or invalid", "chapters/index.json is empty"],
          ["characters/index.json is missing or invalid"]⟩ = findingsWarnings
          (fs1 ++ [.err "chapters/index.json is empty"] ++ fs5 ++ fs6) :=
  empty_chapter_index pkgEmptyIdxBare false _ rfl rfl rfl

/-- Refutation for C3 as stated: with an empty chapter index and a valid
`book.json`, the run still executes the character-registry check — its
"not a dict" warning appears in the output — contradicting the claim that
no character check executes. -/
theorem empty_chapter_index_counterexample :
    validate pkgEmptyIdx false = .ok ⟨false, ["chapters/index.json is empty"],
      ["characters/index.json is not a dict"]⟩
    ∧ VResult.warnings ⟨false, ["chapters/index.json is empty"],
        ["characters/index.json is not a dict"]⟩ ≠ [] :=
  ⟨rfl, by decide⟩

lemma pyTruthy_obj_cons (kv : String × Json) (rest : List (String × Json)) :
    pyTruthy (.obj (kv :: rest)) = true := rfl

/-- The chapter-count step errors with declared count 0 when `chapterCount`
is absent from a non-empty metadata object and the index is non-empty. -/
lemma step4_mismatch {flds : List (String × Json)} {idx : List Json}
    (hne : flds ≠ []) (hidx : idx ≠ []) (hcc : lookupKey flds "chapterCount" = none) :
    step4 (some (.obj flds)) (some idx) =
      .ok [.err ("book.json chapterCount=" ++ (Json.num 0).pyStr
        ++ " but chapters/index.json has " ++ toString idx.length ++ " entries")] := by
  cases flds with
  | nil => exact absurd rfl hne
  | cons kv rest =>
    cases idx with
    | nil => exact absurd rfl hidx
    | cons e rest2 =>
      have hguard : (pyTruthy (Json.obj (kv :: rest)) && !(e :: rest2).isEmpty) = true := rfl
      rw [step4, if_pos hguard]
      have hget : pyGet (.obj (kv :: rest)) "chapterCount" (.num 0) = .ok (.num 0) := by
        simp [pyGet, hcc]
      rw [checkChapterCount]
      rw [hget]
      have hnum : pyEqJ (.num 0) (.num ((e :: rest2).length : Int)) = false := by
        simp only [pyEqJ, Json.pyNumVal]
        simp only [List.length_cons]
        rw [beq_eq_false_iff_ne]
        intro h0
        omega
      simp only [hnum, Bool.false_eq_true, if_false]

/-- C10: valid book metadata that omits `chapterCount` always produces a
chapter-count-mismatch error (declared defaults to 0, the loaded index is
non-empty), so the run fails. -/
theorem missing_chapterCount_fails (p : Package) (strict : Bool) (r : VResult)
    (flds : List (String × Json)) (idx : List Json) (fs1 fs2 : List Finding)
    (hbj : checkBookJson p = .ok (some (.obj flds), fs1))
    (hid : (lookupKey flds "id").isSome)
    (hcc : lookupKey flds "chapterCount" = none)
    (hci : checkChaptersIndex p = .ok (some idx, fs2))
    (hd : p.dirExists = true)
    (h : validate p strict = .ok r) :
    r.passed = false ∧
    ("book.json chapterCount=0 but chapters/index.json has " ++ toString idx.length
      ++ " entries") ∈ r.errors := by
  obtain ⟨fs, hfs, rfl⟩ := validate_ok_elim h
  have hflne : flds ≠ [] := by
    intro h0
    subst h0
    simp [lookupKey] at hid
  have hidxne : idx ≠ [] := (checkChaptersIndex_ok_src hci).2
  have hmsg : ("book.json chapterCount=" ++ (Json.num 0).pyStr
      ++ " but chapters/index.json has " ++ toString idx.length ++ " entries")
      = ("book.json chapterCount=0 but chapters/index.json has "
        ++ toString idx.length ++ " entries") := by
    have h1 : ("book.json chapterCount=" ++ (Json.num 0).pyStr
        ++ " but chapters/index.json has ")
        = "book.json chapterCount=0 but chapters/index.json has " := rfl
    rw [← h1]
  rw [validateFindings, hd] at hfs
  simp only [Bool.not_true, Bool.false_eq_true, if_false, hbj, hci] at hfs
  rw [step4_mismatch hflne hidxne hcc] at hfs
  cases hs3 : step3 p (some idx) with
  | error e => rw [hs3] at hfs; exact Except.noConfusion hfs
  | ok fs3 =>
    rw [hs3] at hfs
    cases hcc5 : checkCharactersIndex p with
    | mk co fs5 =>
      rw [hcc5] at hfs
      cases hs6 : step6 (some (.obj flds)) co with
      | error e => rw [hs6] at hfs; exact Except.noConfusion hfs
      | ok fs6 =>
        rw [hs6] at hfs
        cases hs7 : step7 p (some idx) co with
        | error e => rw [hs7] at hfs; exact Except.noConfusion hfs
        | ok fs7 =>
          rw [hs7] at hfs
          cases hs8 : step8 p (some idx) with
          | error e => rw [hs8] at hfs; exact Except.noConfusion hfs
          | ok fs8 =>
            rw [hs8] at hfs
            injection hfs with h1
            subst h1
            have hmem : ("book.json chapterCount=0 but chapters/index.json has "
                ++ toString idx.length ++ " entries") ∈ findingsErrors strict
                (fs1 ++ fs2 ++ fs3
                  ++ [.err ("book.json chapterCount=" ++ (Json.num 0).pyStr
                    ++ " but chapters/index.json has " ++ toString idx.length ++ " entries")]
                  ++ fs5 ++ fs6 ++ fs7 ++ fs8) := by
              rw [← hmsg]
              apply mem_findingsErrors_of_err
              simp
            refine ⟨?_, hmem⟩
            show (findingsErrors strict _).isEmpty = false
            cases hE : findingsErrors strict
                (fs1 ++ fs2 ++ fs3
                  ++ [.err ("book.json chapterCount=" ++ (Json.num 0).pyStr
                    ++ " but chapters/index.json has " ++ toString idx.length ++ " entries")]
                  ++ fs5 ++ fs6 ++ fs7 ++ fs8) with
            | nil => rw [hE] at hmem; cases hmem
            | cons a l => rfl

/-- Witness for C10 at a one-chapter package whose metadata omits
`chapterCount`. -/
theorem missing_chapterCount_fails_witness :
    VResult.passed ⟨false, ["book.json chapterCount=0 but chapters/index.json has 1 entries"],
      ["characters/index.json is missing or invalid"]⟩ = false
    ∧ "book.json chapterCount=0 but chapters/index.json has 1 entries" ∈
      VResult.errors ⟨false,
        ["book.json chapterCount=0 but chapters/index.json has 1 entries"],
        ["characters/index.json is missing or invalid"]⟩ :=
  missing_chapterCount_fails pkgNoChapterCount false _ _ _ _ _ rfl rfl rfl rfl rfl rfl

lemma step6_none_right (bm : Option Json) : step6 bm none = .ok [] := by
  cases bm <;> rfl

lemma step7_none_right (p : Package) (ci : Option (List Json)) :
    step7 p ci none = .ok [] := by cases ci <;> rfl

lemma findingsErrors_false_wrn (m : String) : findingsErrors false [.wrn m] = [] := rfl

lemma findingsErrors_nil (strict : Bool) : findingsErrors strict [] = [] := rfl

lemma findingsWarnings_wrn (m : String) : findingsWarnings [.wrn m] = [m] := rfl

lemma findingsWarnings_nil : findingsWarnings [] = [] := rfl

lemma findingsWarnings_cons_wrn (m : String) (fs : List Finding) :
    findingsWarnings (.wrn m :: fs) = m :: findingsWarnings fs := rfl

/-- The warning-only registry conditions produce exactly one warning and no
registry. -/
lemma checkCharactersIndex_of_cond {p : Package} (h : charsAbsentOrNonDict p = true) :
    ∃ m, checkCharactersIndex p = (none, [.wrn m])
      ∧ (m = "characters/index.json is missing or invalid"
         ∨ m = "characters/index.json is not a dict") := by
  cases hlk : lookupKey p.files "characters/index.json" with
  | none =>
    refine ⟨_, ?_, Or.inl rfl⟩
    simp [checkCharactersIndex, loadJson, hlk]
  | some fd =>
    cases fd with
    | invalid e =>
      rw [charsAbsentOrNonDict, hlk] at h
      exact absurd h (by simp)
    | json v =>
      cases v with
      | obj chars =>
        rw [charsAbsentOrNonDict, hlk] at h
        exact absurd h (by simp [Json.isObj])
      | null =>
        exact ⟨_, by simp [checkCharactersIndex, loadJson, hlk], Or.inr rfl⟩
      | bool b =>
        exact ⟨_, by simp [checkCharactersIndex, loadJson, hlk], Or.inr rfl⟩
      | num n =>
        exact ⟨_, by simp [checkCharactersIndex, loadJson, hlk], Or.inr rfl⟩
      | str s =>
        exact ⟨_, by simp [checkCharactersIndex, loadJson, hlk], Or.inr rfl⟩
      | arr xs =>
        exact ⟨_, by simp [checkCharactersIndex, loadJson, hlk], Or.inr rfl⟩

/-- C1 (amended): when `characters/index.json` is absent or decodes to a
non-dict, the registry check records exactly one warning and no error, the
registry is unavailable (so the character-count and node-coverage steps are
skipped), and with strict mode off the error list and verdict coincide with
the run that has no character checks at all. -/
theorem chars_registry_warning_only (p : Package) (r : VResult)
    (hd : p.dirExists = true)
    (hcond : charsAbsentOrNonDict p = true)
    (h : validate p false = .ok r) :
    ∃ r' m w1 w2, validateNoCharacterChecks p false = .ok r'
      ∧ checkCharactersIndex p = (none, [.wrn m])
      ∧ (m = "characters/index.json is missing or invalid"
          ∨ m = "characters/index.json is not a dict")
      ∧ r.errors = r'.errors ∧ r.passed = r'.passed
      ∧ r.warnings = w1 ++ m :: w2 ∧ r'.warnings = w1 ++ w2 := by
  obtain ⟨fs, hfs, rfl⟩ := validate_ok_elim h
  obtain ⟨m, hcc, hm⟩ := checkCharactersIndex_of_cond hcond
  cases hbj : checkBookJson p with
  | error e =>
    rw [validateFindings, hd] at hfs
    simp only [Bool.not_true, Bool.false_eq_true, if_false, hbj] at hfs
    exact Except.noConfusion hfs
  | ok pr =>
    obtain ⟨bm, fs1⟩ := pr
    cases hci : checkChaptersIndex p with
    | error e =>
      rw [validateFindings, hd] at hfs
      simp only [Bool.not_true, Bool.false_eq_true, if_false, hbj, hci] at hfs
      exact Except.noConfusion hfs
    | ok pr2 =>
      obtain ⟨chIdx, fs2⟩ := pr2
      cases hs3 : step3 p chIdx with
      | error e =>
        rw [validateFindings, hd] at hfs
        simp only [Bool.not_true, Bool.false_eq_true, if_false, hbj, hci, hs3] at hfs
        exact Except.noConfusion hfs
      | ok fs3 =>
        cases hs4 : step4 bm chIdx with
        | error e =>
          rw [validateFindings, hd] at hfs
          simp only [Bool.not_true, Bool.false_eq_true, if_false, hbj, hci, hs3, hs4] at hfs
          exact Except.noConfusion hfs
        | ok fs4 =>
          cases hs8 : step8 p chIdx with
          | error e =>
            rw [validateFindings, hd] at hfs
            simp only [Bool.not_true, Bool.false_eq_true, if_false, hbj, hci, hs3, hs4,
              hcc, step6_none_right, step7_none_right, hs8] at hfs
            exact Except.noConfusion hfs
          | ok fs8 =>
            rw [validateFindings, hd] at hfs
            simp only [Bool.not_true, Bool.false_eq_true, if_false, hbj, hci, hs3, hs4,
              hcc, step6_none_right, step7_none_right, hs8] at hfs
            injection hfs with h1
            subst h1
            have hcmp : validateNoCharacterChecks p false
                = .ok (mkResult false (fs1 ++ fs2 ++ fs3 ++ fs4 ++ fs8)) := by
              rw [validateNoCharacterChecks, validateNoCharFindings, hd]
              simp only [Bool.not_true, Bool.false_eq_true, if_false, hbj, hci, hs3,
                hs4, hs8]
            refine ⟨mkResult false (fs1 ++ fs2 ++ fs3 ++ fs4 ++ fs8), m,
              findingsWarnings fs1 ++ findingsWarnings fs2 ++ findingsWarnings fs3
                ++ findingsWarnings fs4,
              findingsWarnings fs8, hcmp, hcc, hm, ?_, ?_, ?_, ?_⟩
            · show findingsErrors false (fs1 ++ fs2 ++ fs3 ++ fs4 ++ [.wrn m]
                  ++ [] ++ [] ++ fs8) = findingsErrors false (fs1 ++ fs2 ++ fs3 ++ fs4 ++ fs8)
              simp only [findingsErrors_append, findingsErrors_false_wrn,
                findingsErrors_nil, List.append_nil, List.nil_append]
            · show (findingsErrors false (fs1 ++ fs2 ++ fs3 ++ fs4 ++ [.wrn m]
                  ++ [] ++ [] ++ fs8)).isEmpty
                = (findingsErrors false (fs1 ++ fs2 ++ fs3 ++ fs4 ++ fs8)).isEmpty
              congr 1
              simp only [findingsErrors_append, findingsErrors_false_wrn,
                findingsErrors_nil, List.append_nil, List.nil_append]
            · show findingsWarnings (fs1 ++ fs2 ++ fs3 ++ fs4 ++ [.wrn m] ++ [] ++ [] ++ fs8)
                = _
              simp only [findingsWarnings_append, findingsWarnings_wrn,
                findingsWarnings_nil, List.append_nil, List.nil_append, List.append_assoc,
                List.singleton_append, findingsWarnings_cons_wrn]
            · show findingsWarnings (fs1 ++ fs2 ++ fs3 ++ fs4 ++ fs8) = _
              simp only [findingsWarnings_append, List.append_assoc]

/-- Witness for C1 at the valid package with no `characters/index.json`. -/
theorem chars_registry_warning_only_witness :
    ∃ r' m w1 w2, validateNoCharacterChecks pkgCharsAbsent false = .ok r'
      ∧ checkCharactersIndex pkgCharsAbsent = (none, [.wrn m])
      ∧ (m = "characters/index.json is missing or invalid"
          ∨ m = "characters/index.json is not a dict")
      ∧ VResult.errors ⟨true, [], ["characters/index.json is missing or invalid"]⟩ = r'.errors
      ∧ VResult.passed ⟨true, [], ["characters/index.json is missing or invalid"]⟩ = r'.passed
      ∧ VResult.warnings ⟨true, [], ["characters/index.json is missing or invalid"]⟩
          = w1 ++ m :: w2
      ∧ r'.warnings = w1 ++ w2 :=
  chars_registry_warning_only pkgCharsAbsent _ rfl rfl rfl

/-- Refutation for C1 as stated: a present-but-undecodable
`characters/index.json` is recorded as a loader error (not only a warning)
and the otherwise-valid run fails. -/
theorem chars_invalid_json_fails_counterexample :
    validate pkgCharsInvalid false = .ok ⟨false,
      ["characters/index.json: invalid JSON — Expecting value: line 1 column 1 (char 0)"],
      ["characters/index.json is missing or invalid"]⟩
    ∧ VResult.errors ⟨false,
        ["characters/index.json: invalid JSON — Expecting value: line 1 column 1 (char 0)"],
        ["characters/index.json is missing or invalid"]⟩ ≠ [] :=
  ⟨rfl, by decide⟩

/-- C8: the node-coverage check depends only on the last chapter-index
entry, and on the spec's referential example (final snapshot with nodes
`alyosha` and `zosima`, registry containing only `alyosha`) the run
produces exactly the single warning naming `zosima` and passes with
strict off; an id-less node inserted into the snapshot is skipped and
changes nothing. -/
theorem node_coverage_last_snapshot :
    (∀ (p : Package) (idx1 idx2 : List Json) (chars : List (String × Json)),
      idx1.getLast? = idx2.getLast? →
      checkNodeCharacterCoverage p idx1 chars = checkNodeCharacterCoverage p idx2 chars)
    ∧ validate pkg8 false
        = .ok ⟨true, [], ["1 node ID(s) not in characters/index.json: zosima"]⟩
    ∧ validate pkg8b false
        = .ok ⟨true, [], ["1 node ID(s) not in characters/index.json: zosima"]⟩ := by
  refine ⟨?_, rfl, rfl⟩
  intro p idx1 idx2 chars h
  unfold checkNodeCharacterCoverage
  rw [h]

/-- Witness for C8: two indexes sharing the last entry give the same
coverage result. -/
theorem node_coverage_last_snapshot_witness :
    checkNodeCharacterCoverage pkg8 [Json.null, entry1] [("alyosha", Json.null)]
      = checkNodeCharacterCoverage pkg8 [entry1] [("alyosha", Json.null)] :=
  node_coverage_last_snapshot.1 pkg8 [Json.null, entry1] [entry1] [("alyosha", Json.null)] rfl

/-- C6: `_check_no_empty_snapshots` promises (docstring) to warn whenever a
snapshot has 0 nodes, but its `if snap and isinstance(snap, dict)` guard
uses truthiness, so the empty-object snapshot `{}` — which has 0 nodes —
is silently skipped: the `{}` package warns nothing, while the
`{"nodes": []}` package produces the warning. -/
theorem empty_object_snapshot_skipped :
    validate pkgEmptyObjSnap false = .ok ⟨true, [], []⟩
    ∧ validate pkgZeroNodesSnap false
        = .ok ⟨true, [], ["1 snapshot(s) have 0 nodes: chapters [1]"]⟩ :=
  ⟨rfl, rfl⟩

/-- C7 (amended): when more than 10 chapters have zero-node snapshots, the
single warning states the total count and the Python repr of the first 10
chapter labels, with no ellipsis marker appended. -/
theorem empty_snapshot_warning_truncation (p : Package) (index : List Json)
    (em : List Json) (fsl : List Finding)
    (hacc : emptySnapAcc p index = .ok (em, fsl))
    (hlen : 10 < em.length) :
    checkNoEmptySnapshots p index = .ok (fsl ++ [.wrn (toString em.length
      ++ " snapshot(s) have 0 nodes: chapters " ++ pyReprJsonList (em.take 10))]) := by
  have hne : em.isEmpty = false := by
    cases em with
    | nil => simp at hlen
    | cons a l => rfl
  rw [checkNoEmptySnapshots]
  rw [hacc]
  simp only [hne, Bool.false_eq_true, if_false, mkEmptyMsg]

/-- Witness for C7 at the 11-chapter package. -/
theorem empty_snapshot_warning_truncation_witness :
    checkNoEmptySnapshots pkgEleven ((List.range 11).map fun i => entryN (i + 1))
      = .ok ([] ++ [.wrn (toString (List.length
          ((List.range 11).map fun i => Json.num (i + 1)))
        ++ " snapshot(s) have 0 nodes: chapters "
        ++ pyReprJsonList (((List.range 11).map fun i => Json.num (i + 1)).take 10))]) :=
  empty_snapshot_warning_truncation pkgEleven _ _ [] rfl (by decide)

/-- Refutation for C7 as stated: with 11 zero-node chapters the warning
message contains no ellipsis marker at all. -/
theorem empty_snapshot_no_ellipsis_counterexample :
    validate pkgEleven false = .ok ⟨true, [],
      ["11 snapshot(s) have 0 nodes: chapters [1, 2, 3, 4, 5, 6, 7, 8, 9, 10]"]⟩
    ∧ containsSub "..."
        "11 snapshot(s) have 0 nodes: chapters [1, 2, 3, 4, 5, 6, 7, 8, 9, 10]" = false :=
  ⟨rfl, by decide⟩

lemma missingFields_obj (flds : List (String × Json)) (ks : List String) :
    missingFields (.obj flds) ks = .ok (ks.filter fun k => (lookupKey flds k).isNone) := by
  induction ks with
  | nil => rfl
  | cons k ks ih =>
    cases hlk : lookupKey flds k with
    | none => simp [missingFields, pyContains, hlk, ih, List.filter_cons]
    | some v => simp [missingFields, pyContains, hlk, ih, List.filter_cons]

lemma loadBookMeta_lacking {d : BookDirEntry} (h : lacksBookMeta d = true) :
    ∃ n, loadBookMeta d = .ok (none, [n]) := by
  cases hlk : lookupKey d.files "book.json" with
  | none =>
    exact ⟨"  SKIP " ++ d.name ++ ": no book.json", by simp [loadBookMeta, hlk]⟩
  | some fd =>
    cases fd with
    | invalid e =>
      rw [lacksBookMeta, hlk] at h
      exact absurd h (by simp)
    | json meta =>
      cases meta with
      | obj flds =>
        rw [lacksBookMeta, hlk] at h
        have hfil : ∀ k, k ∈ (["id", "title", "author"] : List String) →
            (lookupKey flds k).isNone = true →
            ((["id", "title", "author"] : List String).filter
              fun k => (lookupKey flds k).isNone).isEmpty = false := by
          intro k hk hf
          have hmem : k ∈ (["id", "title", "author"] : List String).filter
              fun k => (lookupKey flds k).isNone := List.mem_filter.mpr ⟨hk, hf⟩
          cases hE : (["id", "title", "author"] : List String).filter
              fun k => (lookupKey flds k).isNone with
          | nil => rw [hE] at hmem; cases hmem
          | cons a l => rfl
        have hne : ((["id", "title", "author"] : List String).filter
            fun k => (lookupKey flds k).isNone).isEmpty = false := by
          rcases Bool.or_eq_true_iff.mp h with h1 | h1
          · rcases Bool.or_eq_true_iff.mp h1 with h2 | h2
            · exact hfil "id" (by simp) h2
            · exact hfil "title" (by simp) h2
          · exact hfil "author" (by simp) h1
        refine ⟨"  SKIP " ++ d.name ++ ": book.json missing "
          ++ pyReprStrList ((["id", "title", "author"] : List String).filter
            fun k => (lookupKey flds k).isNone), ?_⟩
        simp only [loadBookMeta, hlk, missingFields_obj, hne, Bool.not_false, if_true]
      | null => rw [lacksBookMeta, hlk] at h; exact absurd h (by simp)
      | bool b => rw [lacksBookMeta, hlk] at h; exact absurd h (by simp)
      | num n => rw [lacksBookMeta, hlk] at h; exact absurd h (by simp)
      | str s => rw [lacksBookMeta, hlk] at h; exact absurd h (by simp)
      | arr xs => rw [lacksBookMeta, hlk] at h; exact absurd h (by simp)

lemma scanBooks_provenance {ds : List BookDirEntry} {cat : List CatalogEntry}
    (h : scanBooks ds = .ok cat) :
    ∀ e ∈ cat, ∃ d, d ∈ ds ∧ d.isDir = true
      ∧ ∃ ns, loadBookMeta d = .ok (some e, ns) := by
  induction ds generalizing cat with
  | nil =>
    rw [scanBooks] at h
    injection h with h1
    subst h1
    intro e he
    cases he
  | cons d rest ih =>
    rw [scanBooks] at h
    cases hdir : d.isDir with
    | false =>
      rw [hdir] at h
      simp only [Bool.not_false, if_true] at h
      intro e he
      obtain ⟨d', hd1, hd2, hd3⟩ := ih h e he
      exact ⟨d', List.mem_cons_of_mem d hd1, hd2, hd3⟩
    | true =>
      rw [hdir] at h
      simp only [Bool.not_true, Bool.false_eq_true, if_false] at h
      cases hlb : loadBookMeta d with
      | error e0 => rw [hlb] at h; exact Except.noConfusion h
      | ok pr =>
        obtain ⟨mo, ns⟩ := pr
        cases mo with
        | none =>
          rw [hlb] at h
          intro e he
          obtain ⟨d', hd1, hd2, hd3⟩ := ih h e he
          exact ⟨d', List.mem_cons_of_mem d hd1, hd2, hd3⟩
        | some m =>
          rw [hlb] at h
          cases hsc : scanBooks rest with
          | error e0 => rw [hsc] at h; exact Except.noConfusion h
          | ok cat' =>
            rw [hsc] at h
            injection h with h1
            subst h1
            intro e he
            rcases List.mem_cons.mp he with he1 | he1
            · subst he1
              exact ⟨d, List.mem_cons_self d rest, hdir, ns, hlb⟩
            · obtain ⟨d', hd1, hd2, hd3⟩ := ih hsc e he1
              exact ⟨d', List.mem_cons_of_mem d hd1, hd2, hd3⟩

lemma mem_insertByName {x d : BookDirEntry} {l : List BookDirEntry} :
    x ∈ insertByName d l ↔ x ∈ d :: l := by
  induction l with
  | nil => simp [insertByName]
  | cons e rest ih =>
    rw [insertByName]
    split
    · rfl
    · simp only [List.mem_cons, ih]
      tauto

lemma mem_sortByName {x : BookDirEntry} {l : List BookDirEntry} :
    x ∈ sortByName l ↔ x ∈ l := by
  induction l with
  | nil => rfl
  | cons d rest ih =>
    rw [sortByName, mem_insertByName]
    simp [ih]

/-- C5 (amended): the catalog builder omits every scanned directory lacking
`book.json` or whose decoded `book.json` object misses one of id, title,
author (emitting only an advisory SKIP notice), and every emitted catalog
entry comes from a directory with a complete readable `book.json`; a
`book.json` that exists but is not decodable JSON instead raises an
uncaught `json.JSONDecodeError` that aborts the scan. -/
theorem catalog_omits_unreadable :
    (∀ d, lacksBookMeta d = true → ∃ n, loadBookMeta d = .ok (none, [n]))
    ∧ (∀ (bd : BooksDir) (cat : List CatalogEntry), buildCatalog bd = .ok cat →
        ∀ e ∈ cat, ∃ d, d ∈ bd.entries ∧ d.isDir = true
          ∧ ∃ ns, loadBookMeta d = .ok (some e, ns)) := by
  constructor
  · exact fun d h => loadBookMeta_lacking h
  · intro bd cat h e he
    rw [buildCatalog] at h
    cases hbd : bd.dirExists with
    | false =>
      rw [hbd] at h
      exact Except.noConfusion h
    | true =>
      rw [hbd] at h
      simp only [Bool.not_true, Bool.false_eq_true, if_false] at h
      obtain ⟨d, hd1, hd2, hd3⟩ := scanBooks_provenance h e he
      exact ⟨d, mem_sortByName.mp hd1, hd2, hd3⟩

/-- Witness for C5: a directory without `book.json` is skipped with one
notice, and the single catalog entry of a one-book scan comes from its
readable `book.json`. -/
theorem catalog_omits_unreadable_witness :
    (∃ n, loadBookMeta dirNoBook = .ok (none, [n]))
    ∧ (∃ d, d ∈ (BooksDir.mk true [dirGood]).entries ∧ d.isDir = true
        ∧ ∃ ns, loadBookMeta d
          = .ok (some ⟨.str "g", .str "T", .str "A", .null, .num 0, .num 0⟩, ns)) :=
  ⟨catalog_omits_unreadable.1 dirNoBook rfl,
   catalog_omits_unreadable.2 ⟨true, [dirGood]⟩
     [⟨.str "g", .str "T", .str "A", .null, .num 0, .num 0⟩] rfl
     ⟨.str "g", .str "T", .str "A", .null, .num 0, .num 0⟩ (by simp)⟩

/-- Refutation for C5 as stated: an existing but undecodable `book.json`
aborts the scan with an uncaught decode error instead of being omitted. -/
theorem catalog_invalid_book_json_crashes :
    buildCatalog ⟨true, [dirBadJson]⟩ = .error .decodeError := rfl

lemma lookupKey_mem {α : Type} {l : List (String × α)} {k : String} {v : α}
    (h : lookupKey l k = some v) : (k, v) ∈ l := by
  induction l with
  | nil => cases h
  | cons kv rest ih =>
    obtain ⟨k', v'⟩ := kv
    rw [lookupKey] at h
    by_cases he : k' = k
    · rw [if_pos he] at h
      injection h with h1
      subst h1
      subst he
      exact List.mem_cons_self _ _
    · rw [if_neg he] at h
      exact List.mem_cons_of_mem _ (ih h)

lemma getLast?_some_mem {α : Type} {l : List α} {a : α}
    (h : l.getLast? = some a) : a ∈ l := by
  induction l with
  | nil => cases h
  | cons x rest ih =>
    cases rest with
    | nil =>
      simp only [List.getLast?_singleton, Option.some.injEq] at h
      subst h
      exact List.mem_cons_self _ _
    | cons y t =>
      rw [List.getLast?_cons_cons] at h
      exact List.mem_cons_of_mem _ (ih h)

lemma ite_ok_total {α : Type} (c : Prop) [Decidable c] (a b : α) :
    ∃ o, (if c then (Except.ok a : Except PyErr α) else .ok b) = .ok o := by
  by_cases hc : c
  · exact ⟨a, by rw [if_pos hc]⟩
  · exact ⟨b, by rw [if_neg hc]⟩

/-- A string-or-falsy optional field yields a `getD`-value that is either a
string or falsy. -/
lemma strOrFalsy_getD {o : Option Json} (h : fieldStrOrFalsy o = true) :
    (∃ s, o.getD (.str "") = .str s) ∨ pyTruthy (o.getD (.str "")) = false := by
  cases o with
  | none => exact Or.inl ⟨"", rfl⟩
  | some v =>
    cases v with
    | str s => exact Or.inl ⟨s, rfl⟩
    | null => exact Or.inr rfl
    | bool b => simp only [fieldStrOrFalsy] at h; exact Or.inr (by simpa using h)
    | num n => simp only [fieldStrOrFalsy] at h; exact Or.inr (by simpa using h)
    | arr xs => simp only [fieldStrOrFalsy] at h; exact Or.inr (by simpa using h)
    | obj fs => simp only [fieldStrOrFalsy] at h; exact Or.inr (by simpa using h)

lemma entryFieldFindings_obj_total (i : Nat) (efs : List (String × Json)) :
    ∀ ks : List String, ∃ l, entryFieldFindings i (.obj efs) ks = .ok l := by
  intro ks
  induction ks with
  | nil => exact ⟨[], rfl⟩
  | cons k ks ih =>
    obtain ⟨l, hl⟩ := ih
    simp only [entryFieldFindings, pyContains, hl]
    exact ⟨_, rfl⟩

lemma entriesFindings_total {es : List Json}
    (h : ∀ e ∈ es, entryShapeOk e = true) :
    ∀ i, ∃ l, entriesFindings i es = .ok l := by
  induction es with
  | nil => exact fun i => ⟨[], rfl⟩
  | cons e rest ih =>
    intro i
    have he := h e (List.mem_cons_self _ _)
    cases e with
    | obj efs =>
      obtain ⟨l1, hl1⟩ := entryFieldFindings_obj_total i efs ["chapter", "snapshot", "delta"]
      obtain ⟨l2, hl2⟩ := ih (fun x hx => h x (List.mem_cons_of_mem _ hx)) (i + 1)
      simp only [entriesFindings, hl1, hl2]
      exact ⟨_, rfl⟩
    | null => simp [entryShapeOk] at he
    | bool b => simp [entryShapeOk] at he
    | num n => simp [entryShapeOk] at he
    | str s => simp [entryShapeOk] at he
    | arr xs => simp [entryShapeOk] at he

/-- Same as `strOrFalsy_getD` with Python's `None` default. -/
lemma strOrFalsyNull_getD {o : Option Json} (h : fieldStrOrFalsy o = true) :
    (∃ s, o.getD .null = .str s) ∨ pyTruthy (o.getD .null) = false := by
  cases o with
  | none => exact Or.inr rfl
  | some v =>
    cases v with
    | str s => exact Or.inl ⟨s, rfl⟩
    | null => exact Or.inr rfl
    | bool b => simp only [fieldStrOrFalsy] at h; exact Or.inr (by simpa using h)
    | num n => simp only [fieldStrOrFalsy] at h; exact Or.inr (by simpa using h)
    | arr xs => simp only [fieldStrOrFalsy] at h; exact Or.inr (by simpa using h)
    | obj fs => simp only [fieldStrOrFalsy] at h; exact Or.inr (by simpa using h)

lemma checkBookJson_total {p : Package} (h : bookShapeOk p = true) :
    ∃ out, checkBookJson p = .ok out := by
  cases hlk : lookupKey p.files "book.json" with
  | none =>
    simp only [checkBookJson, loadJson, hlk]
    exact ⟨_, rfl⟩
  | some fd =>
    cases fd with
    | invalid e =>
      simp only [checkBookJson, loadJson, hlk]
      exact ⟨_, rfl⟩
    | json meta =>
      rw [bookShapeOk, hlk] at h
      cases meta with
      | obj flds =>
        simp only [checkBookJson, loadJson, hlk, missingFields_obj, pyGet]
        by_cases hm : ((["id", "title", "author", "schemaVersion"] : List String).filter
            fun k => (lookupKey flds k).isNone).isEmpty
        · simp only [hm, Bool.not_true, Bool.false_eq_true, if_false]
          rcases strOrFalsyNull_getD (o := lookupKey flds "coverImage") h with ⟨s, hs⟩ | hf
          · rw [hs]
            by_cases ht : pyTruthy (.str s)
            · simp only [ht, if_true]
              exact ite_ok_total _ _ _
            · simp only [ht, Bool.false_eq_true, if_false]
              exact ⟨_, rfl⟩
          · simp only [hf, Bool.false_eq_true, if_false]
            exact ⟨_, rfl⟩
        · simp only [hm, Bool.not_false, if_true]
          exact ⟨_, rfl⟩
      | null => exact absurd h (by simp)
      | bool b => exact absurd h (by simp)
      | num n => exact absurd h (by simp)
      | str s => exact absurd h (by simp)
      | arr xs => exact absurd h (by simp)

/-- Successfully returned book metadata is the decoded `book.json` value. -/
lemma checkBookJson_ok_some_src {p : Package} {m : Json} {fs : List Finding}
    (h : checkBookJson p = .ok (some m, fs)) :
    lookupKey p.files "book.json" = some (.json m) := by
  cases hlk : lookupKey p.files "book.json" with
  | none =>
    simp only [checkBookJson, loadJson, hlk, Except.ok.injEq, Prod.mk.injEq] at h
    exact absurd h.1 (by simp)
  | some fd =>
    cases fd with
    | invalid e =>
      simp only [checkBookJson, loadJson, hlk, Except.ok.injEq, Prod.mk.injEq] at h
      exact absurd h.1 (by simp)
    | json meta =>
      cases hmf : missingFields meta ["id", "title", "author", "schemaVersion"] with
      | error e =>
        simp only [checkBookJson, loadJson, hlk, hmf] at h
        exact Except.noConfusion h
      | ok missing =>
        by_cases hm : missing.isEmpty
        · cases hsv : pyGet meta "schemaVersion" Json.null with
          | error e =>
            simp only [checkBookJson, loadJson, hlk, hmf, hm, Bool.not_true,
              Bool.false_eq_true, if_false, hsv] at h
            exact Except.noConfusion h
          | ok sv =>
            cases hcv : pyGet meta "coverImage" Json.null with
            | error e =>
              simp only [checkBookJson, loadJson, hlk, hmf, hm, Bool.not_true,
                Bool.false_eq_true, if_false, hsv, hcv] at h
              exact Except.noConfusion h
            | ok cover =>
              by_cases htr : pyTruthy cover
              · cases cover with
                | str c =>
                  by_cases hcf : p.isFile c
                  · simp only [checkBookJson, loadJson, hlk, hmf, hm, Bool.not_true,
                      Bool.false_eq_true, if_false, if_true, hsv, hcv, htr, hcf,
                      Except.ok.injEq, Prod.mk.injEq] at h
                    injection h.1 with hx
                    rw [hx]
                  · simp only [checkBookJson, loadJson, hlk, hmf, hm, Bool.not_true,
                      Bool.false_eq_true, if_false, if_true, hsv, hcv, htr, hcf,
                      Bool.not_false, Except.ok.injEq, Prod.mk.injEq] at h
                    injection h.1 with hx
                    rw [hx]
                | null => exact absurd htr (by decide)
                | bool b =>
                  simp only [checkBookJson, loadJson, hlk, hmf, hm, Bool.not_true,
                    Bool.false_eq_true, if_false, if_true, hsv, hcv, htr] at h
                  exact Except.noConfusion h
                | num n =>
                  simp only [checkBookJson, loadJson, hlk, hmf, hm, Bool.not_true,
                    Bool.false_eq_true, if_false, if_true, hsv, hcv, htr] at h
                  exact Except.noConfusion h
                | arr xs =>
                  simp only [checkBookJson, loadJson, hlk, hmf, hm, Bool.not_true,
                    Bool.false_eq_true, if_false, if_true, hsv, hcv, htr] at h
                  exact Except.noConfusion h
                | obj ofs =>
                  simp only [checkBookJson, loadJson, hlk, hmf, hm, Bool.not_true,
                    Bool.false_eq_true, if_false, if_true, hsv, hcv, htr] at h
                  exact Except.noConfusion h
              · simp only [checkBookJson, loadJson, hlk, hmf, hm, Bool.not_true,
                  Bool.false_eq_true, if_false, hsv, hcv, htr, Except.ok.injEq,
                  Prod.mk.injEq] at h
                injection h.1 with hx
                rw [hx]
        · simp only [checkBookJson, loadJson, hlk, hmf, hm, Bool.not_false, if_true,
            Except.ok.injEq, Prod.mk.injEq] at h
          exact absurd h.1 (by simp)

lemma checkChaptersIndex_total {p : Package} (h : chapIdxShapeOk p = true) :
    ∃ out, checkChaptersIndex p = .ok out := by
  cases hlk : lookupKey p.files "chapters/index.json" with
  | none =>
    simp only [checkChaptersIndex, loadJson, hlk]
    exact ⟨_, rfl⟩
  | some fd =>
    cases fd with
    | invalid e =>
      simp only [checkChaptersIndex, loadJson, hlk]
      exact ⟨_, rfl⟩
    | json v =>
      cases v with
      | arr es =>
        by_cases he : es.isEmpty
        · simp only [checkChaptersIndex, loadJson, hlk, he, if_true]
          exact ⟨_, rfl⟩
        · rw [chapIdxShapeOk, hlk] at h
          have heb : es.isEmpty = false := by
            cases hE : es.isEmpty
            · rfl
            · exact absurd hE he
          have hall : ∀ e ∈ es, entryShapeOk e = true := by
            rcases Bool.or_eq_true_iff.mp h with h1 | h1
            · rw [heb] at h1; cases h1
            · exact fun e hx => List.all_eq_true.mp h1 e hx
          obtain ⟨l, hl⟩ := entriesFindings_total hall 0
          simp only [checkChaptersIndex, loadJson, hlk, heb, Bool.false_eq_true,
            if_false, hl]
          exact ⟨_, rfl⟩
      | null => simp only [checkChaptersIndex, loadJson, hlk]; exact ⟨_, rfl⟩
      | bool b => simp only [checkChaptersIndex, loadJson, hlk]; exact ⟨_, rfl⟩
      | num n => simp only [checkChaptersIndex, loadJson, hlk]; exact ⟨_, rfl⟩
      | str s => simp only [checkChaptersIndex, loadJson, hlk]; exact ⟨_, rfl⟩
      | obj fs2 => simp only [checkChaptersIndex, loadJson, hlk]; exact ⟨_, rfl⟩

lemma chapterFileEntry_total {p : Package} {e : Json} (h : entryShapeOk e = true) :
    ∃ out, chapterFileEntry p e = .ok out := by
  cases e with
  | obj efs =>
    simp only [entryShapeOk, Bool.and_eq_true] at h
    obtain ⟨hsn, hdl⟩ := h
    simp only [chapterFileEntry, pyGet]
    rcases strOrFalsy_getD hsn with ⟨s, hs⟩ | hsf
    · rw [hs]
      by_cases hts : pyTruthy (.str s)
      · simp only [hts, if_true]
        rcases strOrFalsy_getD hdl with ⟨t, ht⟩ | htf
        · rw [ht]
          by_cases htt : pyTruthy (.str t)
          · simp only [htt, if_true]
            exact ⟨_, rfl⟩
          · simp only [htt, Bool.false_eq_true, if_false]
            exact ⟨_, rfl⟩
        · simp only [htf, Bool.false_eq_true, if_false]
          exact ⟨_, rfl⟩
      · simp only [hts, Bool.false_eq_true, if_false]
        rcases strOrFalsy_getD hdl with ⟨t, ht⟩ | htf
        · rw [ht]
          by_cases htt : pyTruthy (.str t)
          · simp only [htt, if_true]
            exact ⟨_, rfl⟩
          · simp only [htt, Bool.false_eq_true, if_false]
            exact ⟨_, rfl⟩
        · simp only [htf, Bool.false_eq_true, if_false]
          exact ⟨_, rfl⟩
    · simp only [hsf, Bool.false_eq_true, if_false]
      rcases strOrFalsy_getD hdl with ⟨t, ht⟩ | htf
      · rw [ht]
        by_cases htt : pyTruthy (.str t)
        · simp only [htt, if_true]
          exact ⟨_, rfl⟩
        · simp only [htt, Bool.false_eq_true, if_false]
          exact ⟨_, rfl⟩
      · simp only [htf, Bool.false_eq_true, if_false]
        exact ⟨_, rfl⟩
  | null => simp [entryShapeOk] at h
  | bool b => simp [entryShapeOk] at h
  | num n => simp [entryShapeOk] at h
  | str s => simp [entryShapeOk] at h
  | arr xs => simp [entryShapeOk] at h

lemma chapterFilesScan_total {p : Package} {es : List Json}
    (h : ∀ e ∈ es, entryShapeOk e = true) :
    ∃ out, chapterFilesScan p es = .ok out := by
  induction es with
  | nil => exact ⟨([], []), rfl⟩
  | cons e rest ih =>
    obtain ⟨o1, ho1⟩ := chapterFileEntry_total (p := p) (h e (List.mem_cons_self _ _))
    obtain ⟨o2, ho2⟩ := ih fun x hx => h x (List.mem_cons_of_mem _ hx)
    obtain ⟨sm, dm⟩ := o1
    obtain ⟨ms, md⟩ := o2
    simp only [chapterFilesScan, ho1, ho2]
    exact ⟨_, rfl⟩

lemma checkChapterFiles_total {p : Package} {es : List Json}
    (h : ∀ e ∈ es, entryShapeOk e = true) :
    ∃ out, checkChapterFiles p es = .ok out := by
  obtain ⟨⟨ms, md⟩, hscan⟩ := chapterFilesScan_total (p := p) h
  simp only [checkChapterFiles, hscan]
  exact ⟨_, rfl⟩

lemma checkChapterCount_total (flds : List (String × Json)) (idx : List Json) :
    ∃ out, checkChapterCount (.obj flds) idx = .ok out := by
  simp only [checkChapterCount, pyGet]
  exact ite_ok_total _ _ _

lemma checkCharacterCount_total (flds : List (String × Json))
    (chars : List (String × Json)) :
    ∃ out, checkCharacterCount (.obj flds) chars = .ok out := by
  simp only [checkCharacterCount, pyGet]
  exact ite_ok_total _ _ _

lemma coverageMissing_total (chars : List (String × Json)) {ns : List Json}
    (h : ∀ n ∈ ns, nodeShapeOk n = true) :
    ∃ ms, coverageMissing chars ns = .ok ms ∧ ∀ x ∈ ms, ∃ s, x = .str s := by
  induction ns with
  | nil => exact ⟨[], rfl, by simp⟩
  | cons n rest ih =>
    obtain ⟨ms, hms, hstr⟩ := ih fun x hx => h x (List.mem_cons_of_mem _ hx)
    have hn := h n (List.mem_cons_self _ _)
    cases n with
    | obj nfs =>
      simp only [nodeShapeOk] at hn
      rcases strOrFalsy_getD hn with ⟨s, hs⟩ | hf
      · simp only [coverageMissing, pyGet, hs]
        by_cases ht : pyTruthy (.str s)
        · simp only [ht, if_true, pyDictMember, hms]
          refine ⟨_, rfl, ?_⟩
          intro x hx
          by_cases hin : (lookupKey chars s).isSome
          · rw [if_pos hin] at hx
            exact hstr x hx
          · rw [if_neg hin] at hx
            rcases List.mem_cons.mp hx with hx1 | hx1
            · exact ⟨s, hx1⟩
            · exact hstr x hx1
        · simp only [ht, Bool.false_eq_true, if_false]
          exact ⟨ms, hms, hstr⟩
      · simp only [coverageMissing, pyGet, hf, Bool.false_eq_true, if_false]
        exact ⟨ms, hms, hstr⟩
    | null => simp [nodeShapeOk] at hn
    | bool b => simp [nodeShapeOk] at hn
    | num m => simp [nodeShapeOk] at hn
    | str s => simp [nodeShapeOk] at hn
    | arr xs => simp [nodeShapeOk] at hn

lemma joinStrs_total {l : List Json} (h : ∀ x ∈ l, ∃ s, x = .str s) :
    ∃ ss, joinStrs l = .ok ss := by
  induction l with
  | nil => exact ⟨[], rfl⟩
  | cons x rest ih =>
    obtain ⟨s, hs⟩ := h x (List.mem_cons_self _ _)
    obtain ⟨ss, hss⟩ := ih fun y hy => h y (List.mem_cons_of_mem _ hy)
    subst hs
    simp only [joinStrs, hss]
    exact ⟨_, rfl⟩

/-- A loaded object file has a well-shaped `nodes` array when every file of
the package is well shaped. -/
lemma nodes_shape_of_file {p : Package} {path : String} {sfs : List (String × Json)}
    (hfiles : p.files.all (fun kv => fileShapeOk kv.2) = true)
    (hlf : lookupKey p.files path = some (.json (.obj sfs))) :
    ∃ ns, (lookupKey sfs "nodes").getD (.arr []) = .arr ns
      ∧ ∀ n ∈ ns, nodeShapeOk n = true := by
  have hmem := lookupKey_mem hlf
  have hok := List.all_eq_true.mp hfiles _ hmem
  simp only [fileShapeOk] at hok
  cases hnd : (lookupKey sfs "nodes").getD (.arr []) with
  | arr ns =>
    rw [hnd] at hok
    exact ⟨ns, rfl, fun n hn => List.all_eq_true.mp hok n hn⟩
  | null => rw [hnd] at hok; cases hok
  | bool b => rw [hnd] at hok; cases hok
  | num m => rw [hnd] at hok; cases hok
  | str s => rw [hnd] at hok; cases hok
  | obj ofs => rw [hnd] at hok; cases hok

lemma coverage_total {p : Package} {idx : List Json} (chars : List (String × Json))
    (hfiles : p.files.all (fun kv => fileShapeOk kv.2) = true)
    (hidx : ∀ e ∈ idx, entryShapeOk e = true) (hne : idx ≠ []) :
    ∃ out, checkNodeCharacterCoverage p idx chars = .ok out := by
  cases hlast : idx.getLast? with
  | none =>
    rw [List.getLast?_eq_none_iff] at hlast
    exact absurd hlast hne
  | some le =>
    have hle := hidx le (getLast?_some_mem hlast)
    cases le with
    | obj lefs =>
      simp only [entryShapeOk, Bool.and_eq_true] at hle
      simp only [checkNodeCharacterCoverage, hlast, pyGet]
      rcases strOrFalsy_getD hle.1 with ⟨s, hs⟩ | hf
      · rw [hs]
        by_cases ht : pyTruthy (.str s)
        · simp only [ht, Bool.not_true, Bool.false_eq_true, if_false]
          cases hlf : lookupKey p.files ("chapters/" ++ Json.pyStr (.str s)) with
          | none =>
            simp only [loadJson, hlf]
            exact ⟨_, rfl⟩
          | some fd =>
            cases fd with
            | invalid e =>
              simp only [loadJson, hlf]
              exact ⟨_, rfl⟩
            | json v =>
              cases v with
              | obj sfs =>
                simp only [loadJson, hlf]
                by_cases hts : pyTruthy (.obj sfs)
                · simp only [hts, Json.isObj, Bool.not_true, Bool.false_eq_true,
                    Bool.or_self, if_false, pyGet]
                  obtain ⟨ns, hns, hnodes⟩ := nodes_shape_of_file hfiles hlf
                  rw [hns]
                  simp only [pyIterate]
                  obtain ⟨ms, hms, hstr⟩ := coverageMissing_total chars hnodes
                  rw [hms]
                  by_cases hme : ms.isEmpty
                  · simp only [hme, if_true]
                    exact ⟨_, rfl⟩
                  · simp only [hme, Bool.false_eq_true, if_false]
                    obtain ⟨ss, hss⟩ := joinStrs_total
                      fun x hx => hstr x (List.take_subset _ _ hx)
                    rw [hss]
                    exact ⟨_, rfl⟩
                · simp only [hts, Bool.not_false, Bool.true_or, if_true]
                  exact ⟨_, rfl⟩
              | null =>
                simp only [loadJson, hlf]
                exact ⟨_, rfl⟩
              | bool b =>
                simp only [loadJson, hlf, Json.isObj]
                by_cases htv : pyTruthy (.bool b)
                · simp only [htv, Bool.not_true, Bool.not_false, Bool.false_or, if_true]
                  exact ⟨_, rfl⟩
                · simp only [htv, Bool.not_false, Bool.true_or, if_true]
                  exact ⟨_, rfl⟩
              | num m =>
                simp only [loadJson, hlf, Json.isObj]
                by_cases htv : pyTruthy (.num m)
                · simp only [htv, Bool.not_true, Bool.not_false, Bool.false_or, if_true]
                  exact ⟨_, rfl⟩
                · simp only [htv, Bool.not_false, Bool.true_or, if_true]
                  exact ⟨_, rfl⟩
              | str t =>
                simp only [loadJson, hlf, Json.isObj]
                by_cases htv : pyTruthy (.str t)
                · simp only [htv, Bool.not_true, Bool.not_false, Bool.false_or, if_true]
                  exact ⟨_, rfl⟩
                · simp only [htv, Bool.not_false, Bool.true_or, if_true]
                  exact ⟨_, rfl⟩
              | arr xs =>
                simp only [loadJson, hlf, Json.isObj]
                by_cases htv : pyTruthy (.arr xs)
                · simp only [htv, Bool.not_true, Bool.not_false, Bool.false_or, if_true]
                  exact ⟨_, rfl⟩
                · simp only [htv, Bool.not_false, Bool.true_or, if_true]
                  exact ⟨_, rfl⟩
        · have ht2 : (!pyTruthy (.str s)) = true := by
            cases hE : pyTruthy (.str s)
            · rfl
            · exact absurd hE ht
          simp only [ht2, if_true]
          exact ⟨_, rfl⟩
      · have ht2 : (!pyTruthy ((lookupKey lefs "snapshot").getD (.str ""))) = true := by
          rw [hf]
          rfl
        simp only [ht2, if_true]
        exact ⟨_, rfl⟩
    | null => simp [entryShapeOk] at hle
    | bool b => simp [entryShapeOk] at hle
    | num m => simp [entryShapeOk] at hle
    | str s => simp [entryShapeOk] at hle
    | arr xs => simp [entryShapeOk] at hle

lemma emptySnapEntry_total {p : Package} {e : Json}
    (hfiles : p.files.all (fun kv => fileShapeOk kv.2) = true)
    (he : entryShapeOk e = true) :
    ∃ out, emptySnapEntry p e = .ok out := by
  cases e with
  | obj efs =>
    simp only [entryShapeOk, Bool.and_eq_true] at he
    simp only [emptySnapEntry, pyGet]
    rcases strOrFalsy_getD he.1 with ⟨s, hs⟩ | hf
    · rw [hs]
      by_cases ht : pyTruthy (.str s)
      · simp only [ht, Bool.not_true, Bool.false_eq_true, if_false]
        cases hlf : lookupKey p.files ("chapters/" ++ Json.pyStr (.str s)) with
        | none =>
          simp only [loadJson, hlf]
          exact ⟨_, rfl⟩
        | some fd =>
          cases fd with
          | invalid e0 =>
            simp only [loadJson, hlf]
            exact ⟨_, rfl⟩
          | json v =>
            cases v with
            | obj sfs =>
              simp only [loadJson, hlf]
              by_cases hts : pyTruthy (.obj sfs)
              · simp only [hts, Json.isObj, Bool.and_self, if_true, pyGet]
                obtain ⟨ns, hns, hnodes⟩ := nodes_shape_of_file hfiles hlf
                rw [hns]
                simp only [pyLen]
                exact ⟨_, rfl⟩
              · simp only [hts, Bool.false_and, Bool.false_eq_true, if_false]
                exact ⟨_, rfl⟩
            | null =>
              simp only [loadJson, hlf]
              exact ⟨_, rfl⟩
            | bool b =>
              simp only [loadJson, hlf, Json.isObj, Bool.and_false, Bool.false_eq_true,
                if_false]
              exact ⟨_, rfl⟩
            | num m =>
              simp only [loadJson, hlf, Json.isObj, Bool.and_false, Bool.false_eq_true,
                if_false]
              exact ⟨_, rfl⟩
            | str t =>
              simp only [loadJson, hlf, Json.isObj, Bool.and_false, Bool.false_eq_true,
                if_false]
              exact ⟨_, rfl⟩
            | arr xs =>
              simp only [loadJson, hlf, Json.isObj, Bool.and_false, Bool.false_eq_true,
                if_false]
              exact ⟨_, rfl⟩
      · have ht2 : (!pyTruthy (.str s)) = true := by
          cases hE : pyTruthy (.str s)
          · rfl
          · exact absurd hE ht
        simp only [ht2, if_true]
        exact ⟨_, rfl⟩
    · have ht2 : (!pyTruthy ((lookupKey efs "snapshot").getD (.str ""))) = true := by
        rw [hf]
        rfl
      simp only [ht2, if_true]
      exact ⟨_, rfl⟩
  | null => simp [entryShapeOk] at he
  | bool b => simp [entryShapeOk] at he
  | num n => simp [entryShapeOk] at he
  | str s => simp [entryShapeOk] at he
  | arr xs => simp [entryShapeOk] at he

lemma emptySnapAcc_total {p : Package} {es : List Json}
    (hfiles : p.files.all (fun kv => fileShapeOk kv.2) = true)
    (h : ∀ e ∈ es, entryShapeOk e = true) :
    ∃ out, emptySnapAcc p es = .ok out := by
  induction es with
  | nil => exact ⟨([], []), rfl⟩
  | cons e rest ih =>
    obtain ⟨⟨l1, f1⟩, h1⟩ := emptySnapEntry_total hfiles (h e (List.mem_cons_self _ _))
    obtain ⟨⟨l2, f2⟩, h2⟩ := ih fun x hx => h x (List.mem_cons_of_mem _ hx)
    simp only [emptySnapAcc, h1, h2]
    exact ⟨_, rfl⟩

lemma checkNoEmptySnapshots_total {p : Package} {es : List Json}
    (hfiles : p.files.all (fun kv => fileShapeOk kv.2) = true)
    (h : ∀ e ∈ es, entryShapeOk e = true) :
    ∃ out, checkNoEmptySnapshots p es = .ok out := by
  obtain ⟨⟨em, fsl⟩, hacc⟩ := emptySnapAcc_total hfiles h
  simp only [checkNoEmptySnapshots, hacc]
  by_cases hE : em.isEmpty
  · simp only [hE, if_true]
    exact ⟨_, rfl⟩
  · simp only [hE, Bool.false_eq_true, if_false]
    exact ⟨_, rfl⟩

lemma chapterIndex_entries_shape {p : Package} {idx : List Json} {fs2 : List Finding}
    (hchap : chapIdxShapeOk p = true)
    (h2 : checkChaptersIndex p = .ok (some idx, fs2)) :
    (∀ e ∈ idx, entryShapeOk e = true) ∧ idx ≠ [] := by
  obtain ⟨hsrc, hne⟩ := checkChaptersIndex_ok_src h2
  rw [chapIdxShapeOk, hsrc] at hchap
  refine ⟨?_, hne⟩
  rcases Bool.or_eq_true_iff.mp hchap with h1 | h1
  · exfalso
    apply hne
    cases idx with
    | nil => rfl
    | cons a l => cases h1
  · exact fun e he => List.all_eq_true.mp h1 e he

lemma bookMeta_obj {p : Package} {m : Json} {fs1 : List Finding}
    (hbook : bookShapeOk p = true) (h1 : checkBookJson p = .ok (some m, fs1)) :
    ∃ flds, m = .obj flds := by
  have hsrc := checkBookJson_ok_some_src h1
  rw [bookShapeOk, hsrc] at hbook
  cases m with
  | obj flds => exact ⟨flds, rfl⟩
  | null => cases hbook
  | bool b => cases hbook
  | num n => cases hbook
  | str s => cases hbook
  | arr xs => cases hbook

lemma step4_none_left (ci : Option (List Json)) : step4 none ci = .ok [] := by
  cases ci <;> rfl

lemma step6_none_left (co : Option (List (String × Json))) : step6 none co = .ok [] := by
  cases co <;> rfl

lemma step7_none_left (p : Package) (co : Option (List (String × Json))) :
    step7 p none co = .ok [] := by cases co <;> rfl

lemma step3_total {p : Package} {ci : Option (List Json)} {fs2 : List Finding}
    (hchap : chapIdxShapeOk p = true)
    (h2 : checkChaptersIndex p = .ok (ci, fs2)) :
    ∃ o, step3 p ci = .ok o := by
  cases ci with
  | none => exact ⟨[], rfl⟩
  | some idx =>
    by_cases hE : idx.isEmpty
    · simp only [step3, hE, if_true]
      exact ⟨[], rfl⟩
    · obtain ⟨hall, _⟩ := chapterIndex_entries_shape hchap h2
      obtain ⟨o, ho⟩ := checkChapterFiles_total (p := p) hall
      simp only [step3, hE, Bool.false_eq_true, if_false]
      exact ⟨o, ho⟩

lemma step4_total {bm : Option Json} (ci : Option (List Json))
    (hobj : ∀ m, bm = some m → ∃ flds, m = .obj flds) :
    ∃ o, step4 bm ci = .ok o := by
  cases bm with
  | none => exact ⟨[], step4_none_left ci⟩
  | some m =>
    cases ci with
    | none => exact ⟨[], step4_none (some m)⟩
    | some idx =>
      obtain ⟨flds, rfl⟩ := hobj m rfl
      by_cases hg : pyTruthy (.obj flds) && !idx.isEmpty
      · obtain ⟨o, ho⟩ := checkChapterCount_total flds idx
        simp only [step4, hg, if_true]
        exact ⟨o, ho⟩
      · simp only [step4, hg, Bool.false_eq_true, if_false]
        exact ⟨[], rfl⟩

lemma step6_total {bm : Option Json} (co : Option (List (String × Json)))
    (hobj : ∀ m, bm = some m → ∃ flds, m = .obj flds) :
    ∃ o, step6 bm co = .ok o := by
  cases bm with
  | none => exact ⟨[], step6_none_left co⟩
  | some m =>
    cases co with
    | none => exact ⟨[], step6_none_right (some m)⟩
    | some cs =>
      obtain ⟨flds, rfl⟩ := hobj m rfl
      by_cases hg : pyTruthy (.obj flds) && !cs.isEmpty
      · obtain ⟨o, ho⟩ := checkCharacterCount_total flds cs
        simp only [step6, hg, if_true]
        exact ⟨o, ho⟩
      · simp only [step6, hg, Bool.false_eq_true, if_false]
        exact ⟨[], rfl⟩

lemma step7_total {p : Package} {ci : Option (List Json)}
    (co : Option (List (String × Json))) {fs2 : List Finding}
    (hfiles : p.files.all (fun kv => fileShapeOk kv.2) = true)
    (hchap : chapIdxShapeOk p = true)
    (h2 : checkChaptersIndex p = .ok (ci, fs2)) :
    ∃ o, step7 p ci co = .ok o := by
  cases ci with
  | none => exact ⟨[], step7_none_left p co⟩
  | some idx =>
    cases co with
    | none => exact ⟨[], step7_none_right p (some idx)⟩
    | some cs =>
      by_cases hg : !idx.isEmpty && !cs.isEmpty
      · obtain ⟨hall, hne⟩ := chapterIndex_entries_shape hchap h2
        obtain ⟨o, ho⟩ := coverage_total cs hfiles hall hne
        simp only [step7, hg, if_true]
        exact ⟨o, ho⟩
      · simp only [step7, hg, Bool.false_eq_true, if_false]
        exact ⟨[], rfl⟩

lemma step8_total {p : Package} {ci : Option (List Json)} {fs2 : List Finding}
    (hfiles : p.files.all (fun kv => fileShapeOk kv.2) = true)
    (hchap : chapIdxShapeOk p = true)
    (h2 : checkChaptersIndex p = .ok (ci, fs2)) :
    ∃ o, step8 p ci = .ok o := by
  cases ci with
  | none => exact ⟨[], rfl⟩
  | some idx =>
    by_cases hE : idx.isEmpty
    · simp only [step8, hE, if_true]
      exact ⟨[], rfl⟩
    · obtain ⟨hall, _⟩ := chapterIndex_entries_shape hchap h2
      obtain ⟨o, ho⟩ := checkNoEmptySnapshots_total hfiles hall
      simp only [step8, hE, Bool.false_eq_true, if_false]
      exact ⟨o, ho⟩

lemma validateFindings_total {p : Package} (h : wellShaped p = true) :
    ∃ fs, validateFindings p = .ok fs := by
  rw [wellShaped, Bool.and_eq_true, Bool.and_eq_true] at h
  obtain ⟨⟨hbook, hchap⟩, hfiles⟩ := h
  cases hd : p.dirExists with
  | false =>
    simp only [validateFindings, hd, Bool.not_false, if_true]
    exact ⟨_, rfl⟩
  | true =>
    obtain ⟨⟨bm, fs1⟩, h1⟩ := checkBookJson_total hbook
    obtain ⟨⟨ci, fs2⟩, h2⟩ := checkChaptersIndex_total hchap
    have hobj : ∀ m, bm = some m → ∃ flds, m = .obj flds := by
      intro m hm
      subst hm
      exact bookMeta_obj hbook h1
    obtain ⟨o3, h3⟩ := step3_total hchap h2
    obtain ⟨o4, h4⟩ := step4_total ci hobj
    obtain ⟨⟨co, fs5⟩, h5⟩ : ∃ pr, checkCharactersIndex p = pr := ⟨_, rfl⟩
    obtain ⟨o6, h6⟩ := step6_total co hobj
    obtain ⟨o7, h7⟩ := step7_total co hfiles hchap h2
    obtain ⟨o8, h8⟩ := step8_total hfiles hchap h2
    simp only [validateFindings, hd, Bool.not_true, Bool.false_eq_true, if_false,
      h1, h2, h3, h4, h5, h6, h7, h8]
    exact ⟨_, rfl⟩

/-- C4 (amended): on every well-shaped package — object entries in the
chapter index with string-or-falsy `snapshot`/`delta`, object-or-absent
`book.json` with string-or-falsy `coverImage`, and object files whose
`nodes` default to arrays of objects with string-or-falsy `id` — `validate`
returns a normal boolean result with its accumulated lists, and a missing
package directory yields a normal failed result; outside this class a check
can raise (see the counterexample). -/
theorem validate_total_on_well_shaped :
    (∀ (p : Package) (strict : Bool), wellShaped p = true →
      ∃ r, validate p strict = .ok r ∧ r.passed = r.errors.isEmpty)
    ∧ (∀ (p : Package) (strict : Bool), p.dirExists = false →
      validate p strict = .ok ⟨false, ["Directory does not exist: " ++ p.bookDir], []⟩) := by
  constructor
  · intro p strict h
    obtain ⟨fs, hfs⟩ := validateFindings_total h
    refine ⟨mkResult strict fs, ?_, rfl⟩
    rw [validate, hfs]
  · intro p strict hd
    rw [validate, validateFindings, hd]
    rfl

/-- Witness for C4: the referential example package is well shaped and
validates normally; a non-existent directory fails normally. -/
theorem validate_total_on_well_shaped_witness :
    (∃ r, validate pkg8 false = .ok r ∧ r.passed = r.errors.isEmpty)
    ∧ validate pkgNoDir true
        = .ok ⟨false, ["Directory does not exist: " ++ pkgNoDir.bookDir], []⟩ :=
  ⟨validate_total_on_well_shaped.1 pkg8 false rfl,
   validate_total_on_well_shaped.2 pkgNoDir true rfl⟩

/-- Refutation for C4 as stated: a chapter-index entry that is a number
(not a JSON object) makes `_check_chapters_index` evaluate `field not in
entry` on an `int`, raising an uncaught `TypeError` instead of returning a
normal result. -/
theorem non_object_entry_crashes :
    validate pkgNumEntry false = .error .typeError := rfl
